import Mathlib

/-!
# Verification of the Razão ledger import and aggregation engine

Shallow embedding of the core of `src/adapters/razao-importer.ts` and
`src/adapters/razao-aggregator.ts` (a Brazilian general-ledger Excel importer
and financial-statement aggregator), together with proofs settling the frozen
claims C1..C10 about it.

Modelling conventions:
* JavaScript numbers are modelled as exact rationals (`ℚ`).  All arithmetic of
  the claims (sums of debits/credits, balances) is exact decimal arithmetic in
  the source's intended domain, so `ℚ` is a faithful carrier; IEEE-754 rounding
  is not modelled.
* JavaScript strings are Lean `String`s; the handful of string operations the
  source uses (`trim`, `toLowerCase`, `includes`, `startsWith`, `split`,
  regular-expression tests) are implemented below on `List Char` with the
  semantics of the JS originals on the character ranges the ledger data uses.
* A spreadsheet cell (`string | number | null | undefined`) is the inductive
  `Cell`; `undefined` and `null` are identified, which is sound because every
  use site tests them with `== null` or `?? `, both of which identify the two.
* The domain record types the two adapters read and write (`LedgerEntry`,
  `LedgerAccount`, `ParsedLedger`, `LedgerMapping`, `StatementPeriod`,
  `IncomeStatement`, `BalanceSheet`) are embedded field-for-field from the
  `src/domain` / `src/domain/ledger` interface declarations included in
  `src/store/valuation-store.ts`; string-literal union types become inductives
  (`AccountType`, `TargetStatement`) or `Option` types.
-/

/- Batteries marks the arithmetic of `Rat` `@[irreducible]`; re-allow unfolding
so that concrete ledger computations can be settled by `decide`. -/
attribute [local semireducible] Rat.mul Rat.add Rat.sub Rat.inv Rat.ofScientific

namespace Razao

/-- Whitespace class used by JS `trim` and the regex class `\s`
(space, tab, LF, CR, VT, FF, NBSP cover every character the data can contain). -/
def jsIsWS (c : Char) : Bool :=
  c = ' ' || c = '\t' || c = '\n' || c = '\r' || c.toNat = 11 || c.toNat = 12 || c.toNat = 160

/-- JS `String.prototype.trim` on a character list. -/
def jsTrimList (l : List Char) : List Char :=
  ((l.dropWhile jsIsWS).reverse.dropWhile jsIsWS).reverse

/-- JS `String.prototype.trim`. -/
def jsTrim (s : String) : String := String.mk (jsTrimList s.data)

/-- JS `String.prototype.toLowerCase` restricted to one character: ASCII
letters and the Latin-1 accented range U+00C0..U+00DE (excluding ×), which
covers every upper-case character occurring in ledger headers and keywords. -/
def jsLowerChar (c : Char) : Char :=
  if 'A' ≤ c ∧ c ≤ 'Z' then Char.ofNat (c.toNat + 32)
  else if 0xC0 ≤ c.toNat ∧ c.toNat ≤ 0xDE ∧ c.toNat ≠ 0xD7 then Char.ofNat (c.toNat + 32)
  else c

/-- JS `String.prototype.toLowerCase`. -/
def jsToLower (s : String) : String := String.mk (s.data.map jsLowerChar)

/-- Does the first list appear at the head of the second? -/
def isPreOf : List Char → List Char → Bool
  | [], _ => true
  | _ :: _, [] => false
  | a :: as, b :: bs => a = b && isPreOf as bs

/-- Does `sub` occur as a contiguous sublist? -/
def hasSubList (sub : List Char) : List Char → Bool
  | [] => sub.isEmpty
  | c :: rest => isPreOf sub (c :: rest) || hasSubList sub rest

/-- JS `hay.includes(sub)`. -/
def jsIncludes (hay sub : String) : Bool := hasSubList sub.data hay.data

/-- JS `s.startsWith(p)`. -/
def jsStarts (s p : String) : Bool := isPreOf p.data s.data

/-- JS `s.endsWith(p)`. -/
def jsEnds (s p : String) : Bool := isPreOf p.data.reverse s.data.reverse

/-- Strict lexicographic comparison of character lists (JS string `<`, which
compares UTF-16 code units). -/
def listLtChars : List Char → List Char → Bool
  | [], [] => false
  | [], _ :: _ => true
  | _ :: _, [] => false
  | a :: as, b :: bs => if a = b then listLtChars as bs else decide (a < b)

/-- JS `a < b` on strings. -/
def jsStrLt (a b : String) : Bool := listLtChars a.data b.data

/-- JS `a <= b` on strings (`!(b < a)`). -/
def jsStrLe (a b : String) : Bool := !(jsStrLt b a)

/-- ASCII digit test (regex `\d`). -/
def isDigitCh (c : Char) : Bool := '0' ≤ c && c ≤ '9'

/-- Numeric value of a list of ASCII digits. -/
def digitsToNat (l : List Char) : ℕ :=
  l.foldl (fun acc c => acc * 10 + (c.toNat - 48)) 0

/-- Exponent suffix of JS `parseFloat`: optional sign then digits; an `e` with
no digits after it contributes exponent 0 (the suffix is simply not part of the
parsed prefix). -/
def expParseZ (l : List Char) : ℤ :=
  let p := match l with
    | '-' :: r => ((-1 : ℤ), r)
    | '+' :: r => ((1 : ℤ), r)
    | _ => ((1 : ℤ), l)
  let ds := p.2.takeWhile isDigitCh
  if ds.isEmpty then 0 else p.1 * (digitsToNat ds : ℤ)

/-- `10 ^ n` on rationals, defined structurally so that concrete inputs
evaluate inside the kernel. -/
def pow10 : ℕ → ℚ
  | 0 => 1
  | n + 1 => pow10 n * 10

/-- `10 ^ z` for an integer exponent. -/
def qPow10Z (z : ℤ) : ℚ :=
  if 0 ≤ z then pow10 z.toNat else 1 / pow10 (-z).toNat

/-- JS `parseFloat`, returning `none` for NaN: skip leading whitespace, parse
an optional sign, a decimal mantissa (at least one digit before or after the
point) and an optional exponent, ignoring any trailing junk.  (`parseFloat`
also accepts the literal `Infinity`, which has no rational value; it is treated
as unparsable here and is never produced by ledger data.) -/
def parseFloatQ (s : String) : Option ℚ :=
  let l := s.data.dropWhile jsIsWS
  let sp := match l with
    | '-' :: r => ((-1 : ℚ), r)
    | '+' :: r => ((1 : ℚ), r)
    | _ => ((1 : ℚ), l)
  let intPart := sp.2.takeWhile isDigitCh
  let l2 := sp.2.dropWhile isDigitCh
  let fp := match l2 with
    | '.' :: r => (r.takeWhile isDigitCh, r.dropWhile isDigitCh)
    | _ => (([] : List Char), l2)
  if intPart.isEmpty ∧ fp.1.isEmpty then none
  else
    let mant : ℚ := (digitsToNat intPart : ℚ) + (digitsToNat fp.1 : ℚ) / pow10 fp.1.length
    let expV : ℤ := match fp.2 with
      | 'e' :: r => expParseZ r
      | 'E' :: r => expParseZ r
      | _ => 0
    some (sp.1 * mant * qPow10Z expV)

/-- Decimal string of an integer (JS `String(n)` for integers). -/
def intToStr (z : ℤ) : String :=
  if z < 0 then "-" ++ toString z.natAbs else toString z.natAbs

/-- Fractional digits of a rational in `[0,1)`, up to `fuel` digits. -/
def fracDigits (fuel : ℕ) (q : ℚ) : String :=
  match fuel with
  | 0 => ""
  | fuel + 1 =>
    if q = 0 then ""
    else
      let q10 := q * 10
      intToStr ⌊q10⌋ ++ fracDigits fuel (q10 - ⌊q10⌋)

/-- JS number-to-string conversion (`String(n)`), exact for integers and
finite decimals; a non-terminating expansion is truncated at 17 digits (JS
prints the shortest representation of the underlying double — ledger cells
only ever carry finite decimals, where the two agree). -/
def qToString (q : ℚ) : String :=
  let sgn := if q < 0 then "-" else ""
  let a := |q|
  let fp := a - ⌊a⌋
  if fp = 0 then sgn ++ toString (⌊a⌋).natAbs
  else sgn ++ toString (⌊a⌋).natAbs ++ "." ++ fracDigits 17 fp

/-- A raw spreadsheet cell: `string | number | null | undefined`
(`null` and `undefined` identified, see the header note). -/
inductive Cell where
  | str (s : String)
  | num (q : ℚ)
  | null
deriving DecidableEq

/-- A raw row (`RawRow` in the source): ordered cells, no fixed width. -/
abbrev RawRow := List Cell

/-- JS `String(c ?? '')`. -/
def jsCellString (c : Cell) : String :=
  match c with
  | .str s => s
  | .num q => qToString q
  | .null => ""

/-- JS truthiness of a cell (`''`, `0`, `null`, `undefined` are falsy). -/
def cellTruthy : Cell → Bool
  | .null => false
  | .str s => !s.isEmpty
  | .num q => q != 0

/-- JS `row[i]` with out-of-range and negative indices giving `undefined`. -/
def rowGet (row : RawRow) (i : ℤ) : Cell :=
  if i < 0 then Cell.null else (List.getD row i.toNat Cell.null)

/-- `str.replace(/\s*[DC]\s*$/i, '')` applied to an already-trimmed string:
drop a final debit/credit marker letter together with the whitespace run
before it. -/
def stripTrailingDC (s : String) : String :=
  match s.data.reverse with
  | c :: rest =>
    if c = 'D' ∨ c = 'C' ∨ c = 'd' ∨ c = 'c'
    then String.mk ((rest.dropWhile jsIsWS).reverse)
    else s
  | [] => s

/-- `str.replace(/\./g, '')`. -/
def removeDots (s : String) : String :=
  String.mk (s.data.filter (fun c => c ≠ '.'))

/-- Replace the first occurrence of a character (JS `replace(',', '.')`). -/
def replaceFirstChar : List Char → Char → Char → List Char
  | [], _, _ => []
  | c :: rest, a, b => if c = a then b :: rest else c :: replaceFirstChar rest a b

/-- `str.replace(',', '.')` (first comma only). -/
def commaToDot (s : String) : String := String.mk (replaceFirstChar s.data ',' '.')

/-- `str.slice(1, -1)`. -/
def sliceInner (s : String) : String := String.mk ((s.data.drop 1).dropLast)

/-- `parseNumericCell` from razao-importer.ts: trim, drop a trailing D/C
marker, Brazilian decimal-comma handling when a comma is present, parenthesised
negatives, `parseFloat` with NaN mapped to 0.  Total by construction. -/
def parseNumericCell (c : Cell) : ℚ :=
  match c with
  | .null => 0
  | .num q => q
  | .str s0 =>
    let s1 := jsTrim s0
    if s1.isEmpty then 0
    else
      let s2 := stripTrailingDC s1
      let s3 := if jsIncludes s2 "," then commaToDot (removeDots s2) else s2
      let s4 := if jsStarts s3 "(" ∧ jsEnds s3 ")" then "-" ++ sliceInner s3 else s3
      match parseFloatQ s4 with
      | some v => v
      | none => 0

/-- Account nature (`LedgerAccount['accountType']` in the source). -/
inductive AccountType where
  | asset | liability | equity | revenue | expense | unknown
deriving DecidableEq

/-- `classifyAccountByCode` from razao-importer.ts: switch on the first
character of the code, with the `2.3`/`2.4`/`2.5` string-prefix carve-out for
equity. -/
def classifyAccountByCode (code : String) : AccountType :=
  match code.data with
  | [] => .unknown
  | c :: _ =>
    if c = '1' then .asset
    else if c = '2' then
      (if jsStarts code "2.3" ∨ jsStarts code "2.4" ∨ jsStarts code "2.5"
       then .equity else .liability)
    else if c = '3' then .revenue
    else if c = '4' then .expense
    else if c = '5' then .expense
    else if c = '6' then .revenue
    else .unknown

/-- JS `s.split(sep)` for a one-character separator (accumulator form, so the
kernel can evaluate it). -/
def splitCharAux (sep : Char) : List Char → List Char → List (List Char)
  | [], acc => [acc.reverse]
  | c :: rest, acc =>
    if c = sep then acc.reverse :: splitCharAux sep rest []
    else splitCharAux sep rest (c :: acc)

/-- JS `s.split(sep)` for a one-character separator. -/
def jsSplitChar (s : String) (sep : Char) : List String :=
  (splitCharAux sep s.data []).map String.mk

/-- `getAccountLevel`: number of dot-separated segments. -/
def getAccountLevel (code : String) : ℕ := (jsSplitChar code '.').length

/-- `LedgerEntry` — one transaction line, from the `src/domain/ledger`
declarations included in src/src/store/valuation-store.ts (line 1358); the
fields are exactly those the importer writes.  `balanceType` is the optional
debit/credit tag `'D' | 'C' | null` (the importer always writes `null`). -/
structure LedgerEntry where
  date : String
  description : String
  debit : ℚ
  credit : ℚ
  balance : ℚ
  balanceType : Option Char
deriving DecidableEq

/-- `LedgerAccount`, from the `src/domain/ledger` declarations included in
src/src/store/valuation-store.ts (line 1368); fields as written by the
importer. -/
structure LedgerAccount where
  code : String
  name : String
  fullLabel : String
  level : ℕ
  entries : List LedgerEntry
  openingBalance : ℚ
  closingBalance : ℚ
  totalDebits : ℚ
  totalCredits : ℚ
  accountType : AccountType
deriving DecidableEq

/-- `ParsedLedger`, from the `src/domain/ledger` declarations included in
src/src/store/valuation-store.ts (line 1383).  `companyName` is
`string | null`; it may be the empty string (a JS falsy value distinct from
`null` that the header scanner can produce). -/
structure ParsedLedger where
  companyName : Option String
  periodStart : Option String
  periodEnd : Option String
  accounts : List LedgerAccount
  rawRowCount : ℕ
  parseWarnings : List String
deriving DecidableEq

/-- `ColumnConfig` from razao-importer.ts: column indices, `-1` = not present. -/
structure ColumnConfig where
  dateCol : ℤ
  descriptionCol : ℤ
  debitCol : ℤ
  creditCol : ℤ
  balanceCol : ℤ
  balanceExCol : ℤ
deriving DecidableEq

/-- `SALDO_KEYWORDS` from razao-importer.ts (order matters: the first keyword
contained in a row's text wins). -/
def SALDO_KEYWORDS : List String :=
  ["saldo anterior", "saldo final", "saldo inicial", "totais do per",
   "total do per", "totais do mês", "total do mês", "total do mes", "transporte"]

/-- `HEADER_KEYWORDS` from razao-importer.ts. -/
def HEADER_KEYWORDS : List String :=
  ["livro raz", "razão", "razao", "relatório", "relatorio", "empresa:",
   "c.n.p.j", "cnpj:", "período:", "periodo:", "página", "pagina",
   "emissão", "emissao"]

/-- The regex `ACCOUNT_CODE_RE = /^(\d+\.)+\d+$/`: at least two dot-separated
non-empty all-digit segments. -/
def accountCodeMatch (s : String) : Bool :=
  let parts := jsSplitChar s '.'
  parts.length ≥ 2 && parts.all (fun p => !p.isEmpty && p.data.all isDigitCh)

/-- The regex `BR_DATE_RE = /^(\d{1,2})\/(\d{1,2})\/(\d{2,4})$/`, returning the
three captures. -/
def brDateMatch (s : String) : Option (String × String × String) :=
  match jsSplitChar s '/' with
  | [d, m, y] =>
    if (1 ≤ d.length ∧ d.length ≤ 2 ∧ d.data.all isDigitCh) ∧
       (1 ≤ m.length ∧ m.length ≤ 2 ∧ m.data.all isDigitCh) ∧
       (2 ≤ y.length ∧ y.length ≤ 4 ∧ y.data.all isDigitCh)
    then some (d, m, y) else none
  | _ => none

/-- JS `padStart(2, '0')`. -/
def padStart2 (s : String) : String :=
  if s.length ≥ 2 then s else String.mk (List.replicate (2 - s.length) '0') ++ s

/-- `isExcelDateSerial`: an integral number in the serial range (36000, 74000). -/
def isExcelDateSerial (c : Cell) : Bool :=
  match c with
  | .num q => 36000 < q && q < 74000 && q.den == 1
  | _ => false

/-- Gregorian date from a day count with day 0 = 1970-01-01 (valid for
non-negative inputs, which the serial-range guard ensures).  This is the pure
day arithmetic performed by `new Date(epoch + serial*86400000)` in
`excelSerialToISO`. -/
def civilFromDays (z : ℕ) : ℕ × ℕ × ℕ :=
  let days := z + 719468
  let era := days / 146097
  let doe := days % 146097
  let yoe := (doe - doe / 1460 + doe / 36524 - doe / 146097) / 365
  let y := yoe + era * 400
  let doy := doe - (365 * yoe + yoe / 4 - yoe / 100)
  let mp := (5 * doy + 2) / 153
  let d := doy - (153 * mp + 2) / 5 + 1
  let m := if mp < 10 then mp + 3 else mp - 9
  (if m ≤ 2 then y + 1 else y, m, d)

/-- `excelSerialToISO`: Excel serial (day 0 = 1899-12-30) to `yyyy-mm-dd`. -/
def excelSerialToISO (q : ℚ) : String :=
  let t := civilFromDays (q.num.toNat - 25569)
  intToStr t.1 ++ "-" ++ padStart2 (toString t.2.1) ++ "-" ++ padStart2 (toString t.2.2)

/-- `parseBrDate`: Brazilian `dd/mm/yyyy` (or 2-digit year, prefixed `20`) to
ISO `yyyy-mm-dd`. -/
def parseBrDate (s : String) : Option String :=
  match brDateMatch s with
  | none => none
  | some (d, m, y) =>
    let year := if y.length = 2 then "20" ++ y else y
    some (year ++ "-" ++ padStart2 m ++ "-" ++ padStart2 d)

/-- `isDateCell`: serial number or Brazilian date string. -/
def isDateCell (c : Cell) : Bool :=
  match c with
  | .null => false
  | c => isExcelDateSerial c || (brDateMatch (jsTrim (jsCellString c))).isSome

/-- `extractDate`: ISO date of a cell (serial or string), `""` if unparsable. -/
def extractDate (c : Cell) : String :=
  match c with
  | .num q =>
    if isExcelDateSerial (.num q) then excelSerialToISO q
    else (parseBrDate (jsTrim (jsCellString (.num q)))).getD ""
  | c => (parseBrDate (jsTrim (jsCellString c))).getD ""

/-- JS `arr.join(' ')`. -/
def joinSpace : List String → String
  | [] => ""
  | [s] => s
  | s :: rest => s ++ " " ++ joinSpace rest

/-- `row.map((c) => String(c ?? '')).join(' ').toLowerCase().trim()` — the row
text used by both `isPageHeader` and `isSaldoOrTotalLine`. -/
def rowText (row : RawRow) : String :=
  jsTrim (jsToLower (joinSpace (row.map jsCellString)))

/-- `isPageHeader`: empty text or any report-boilerplate keyword. -/
def isPageHeader (row : RawRow) : Bool :=
  let text := rowText row
  text.isEmpty || HEADER_KEYWORDS.any (fun kw => jsIncludes text kw)

/-- `isColumnHeaderRow`: a `data` cell together with a debit/credit cell. -/
def isColumnHeaderRow (row : RawRow) : Bool :=
  let cells := row.map (fun c => jsTrim (jsToLower (jsCellString c)))
  cells.any (fun c => c = "data") &&
  cells.any (fun c => c = "débito" || c = "debito" || c = "crédito" || c = "credito")

/-- `isSaldoOrTotalLine`: the first matching saldo/totals keyword, if any. -/
def isSaldoOrTotalLine (row : RawRow) : Option String :=
  let text := rowText row
  SALDO_KEYWORDS.find? (fun kw => jsIncludes text kw)

/-- The `(\.\d+)+` groups of `ACCOUNT_HEADER_RE`: consume dot-digits groups
greedily, returning the consumed characters and the rest.  Structural recursion
on a fuel bounded by the list length (each group consumes at least two
characters), so the kernel can evaluate it. -/
def grabDotGroupsAux : ℕ → List Char → List Char × List Char
  | 0, l => ([], l)
  | fuel + 1, l =>
    match l with
    | '.' :: c :: rest =>
      if isDigitCh c then
        let ds := (c :: rest).takeWhile isDigitCh
        let tl := (c :: rest).dropWhile isDigitCh
        let r := grabDotGroupsAux fuel tl
        ('.' :: (ds ++ r.1), r.2)
      else ([], '.' :: c :: rest)
    | l => ([], l)

/-- The `(\.\d+)+` groups of `ACCOUNT_HEADER_RE`. -/
def grabDotGroups (l : List Char) : List Char × List Char :=
  grabDotGroupsAux l.length l

/-- The regex `ACCOUNT_HEADER_RE =
`/^(?:Conta:\s*)?(\d+(?:\.\d+)+)\s*[-–—]\s*(.+)/i` on an (already trimmed)
string, returning the code and name captures.  The optional `Conta:` prefix,
the code and the dash cannot overlap (distinct first characters), so the
backtracking of the JS engine reduces to this direct greedy parse. -/
def accountHeaderMatch (s : String) : Option (String × String) :=
  let l := s.data
  let body :=
    if isPreOf "conta:".data (l.map jsLowerChar)
    then (l.drop 6).dropWhile jsIsWS
    else l
  let d0 := body.takeWhile isDigitCh
  if d0.isEmpty then none
  else
    let g := grabDotGroups (body.dropWhile isDigitCh)
    if g.1.isEmpty then none
    else
      match g.2.dropWhile jsIsWS with
      | c :: r =>
        if c = '-' ∨ c = '–' ∨ c = '—' then
          let r2 := r.dropWhile jsIsWS
          let name := r2.takeWhile (fun ch => ch ≠ '\n')
          if name.isEmpty then none
          else some (String.mk (d0 ++ g.1), String.mk name)
        else none
      | [] => none

/-- `row[5] ?? row[3] ?? ''` as a string. -/
def cellOr (a b : Cell) : String :=
  match a with
  | Cell.null => jsCellString b
  | c => jsCellString c

/-- The per-cell scan of `detectAccountHeader` (`for (let i = 0; ...)`):
either the `Conta: code - name` pattern or an isolated account code with the
following cell as the name. -/
def detectAccountHeaderLoop : RawRow → Option (String × String)
  | [] => none
  | c :: rest =>
    match c with
    | Cell.null => detectAccountHeaderLoop rest
    | c =>
      let str := jsTrim (jsCellString c)
      match accountHeaderMatch str with
      | some m => some (m.1, jsTrim m.2)
      | none =>
        if accountCodeMatch str ∧ ¬ isExcelDateSerial c then
          let nextCell := rest.headD Cell.null
          let name := if cellTruthy nextCell then jsTrim (jsCellString nextCell) else str
          some (str, name)
        else detectAccountHeaderLoop rest

/-- `detectAccountHeader`: the Domínio fixed-position format
(`["Conta:", id, code, _, _, name]`) first, then the per-cell scan. -/
def detectAccountHeader (row : RawRow) : Option (String × String) :=
  let dom :=
    if cellTruthy (rowGet row 0) ∧ jsToLower (jsTrim (jsCellString (rowGet row 0))) = "conta:" then
      let code := jsTrim (jsCellString (rowGet row 2))
      let name := jsTrim (cellOr (rowGet row 5) (rowGet row 3))
      if ¬ code.isEmpty ∧ accountCodeMatch code then
        some (code, if ¬ name.isEmpty then name else code)
      else none
    else none
  match dom with
  | some r => some r
  | none => detectAccountHeaderLoop row

/-- The backwards scan of `extractBalanceFromRow` (last non-zero numeric cell),
on the reversed row. -/
def lastNonZeroScan : List Cell → ℚ
  | [] => 0
  | c :: rest =>
    let v := parseNumericCell c
    if v ≠ 0 then v else lastNonZeroScan rest

/-- `extractBalanceFromRow`: saldo-exercício column first, then saldo column,
then the last non-zero numeric cell of the row. -/
def extractBalanceFromRow (row : RawRow) (config : ColumnConfig) : ℚ :=
  if config.balanceExCol ≥ 0 ∧ parseNumericCell (rowGet row config.balanceExCol) ≠ 0 then
    parseNumericCell (rowGet row config.balanceExCol)
  else if config.balanceCol ≥ 0 ∧ parseNumericCell (rowGet row config.balanceCol) ≠ 0 then
    parseNumericCell (rowGet row config.balanceCol)
  else lastNonZeroScan row.reverse

/-- `c\.?n\.?p\.?j` (case-insensitive) as a prefix of the list. -/
def dropOptDot : List Char → List Char
  | '.' :: r => r
  | l => l

/-- Matches the regex fragment `c\.?n\.?p\.?j` (case-insensitive) at the head
of the list.  Each optional dot is disjoint from the following letter, so the
greedy parse is exact. -/
def cnpjCore (l : List Char) : Bool :=
  match l with
  | c0 :: r0 =>
    jsLowerChar c0 = 'c' &&
    (match dropOptDot r0 with
     | n0 :: r1 =>
       jsLowerChar n0 = 'n' &&
       (match dropOptDot r1 with
        | p0 :: r2 =>
          jsLowerChar p0 = 'p' &&
          (match dropOptDot r2 with
           | j0 :: _ => jsLowerChar j0 = 'j'
           | [] => false)
        | [] => false)
     | [] => false)
  | [] => false

/-- Tail of the `empresa:` capture: `(?:\s*c\.?n\.?p\.?j|\s*$)`. -/
def empresaTail (l : List Char) : Bool :=
  cnpjCore (l.dropWhile jsIsWS) || l.all jsIsWS

/-- The lazy `(.+?)` of the `empresa:` regex: the shortest non-empty run of
non-newline characters whose tail satisfies `empresaTail`. -/
def empresaLazyCap (seen : List Char) : List Char → Option (List Char)
  | [] => none
  | c :: r =>
    if c = '\n' then none
    else if empresaTail r then some (seen ++ [c])
    else empresaLazyCap (seen ++ [c]) r

/-- One attempt of the `empresa:` regex at a fixed occurrence: greedy `\s*`
(largest whitespace skip first, backing off one character at a time as the JS
engine does). -/
def empresaTryWs (after : List Char) : ℕ → Option (List Char)
  | 0 => empresaLazyCap [] after
  | w + 1 =>
    match empresaLazyCap [] (after.drop (w + 1)) with
    | some cap => some cap
    | none => empresaTryWs after w

/-- Leftmost-occurrence search of
`/empresa:\s*(.+?)(?:\s*c\.?n\.?p\.?j|\s*$)/i`, returning capture 1 (from the
original-case text). -/
def empresaLoop (orig lower : List Char) : ℕ → ℕ → Option (List Char)
  | _, 0 => none
  | i, fuel + 1 =>
    if isPreOf "empresa:".data (lower.drop i) then
      let after := orig.drop (i + 8)
      match empresaTryWs after (after.takeWhile jsIsWS).length with
      | some cap => some cap
      | none => empresaLoop orig lower (i + 1) fuel
    else if lower.length ≤ i then none
    else empresaLoop orig lower (i + 1) fuel

/-- `text.match(/empresa:\s*(.+?)(?:\s*c\.?n\.?p\.?j|\s*$)/i)`, capture 1. -/
def empresaCapture (text : String) : Option String :=
  (empresaLoop text.data (text.data.map jsLowerChar) 0 (text.data.length + 1)).map String.mk

/-- Exactly `n` digits at the head of the list. -/
def takeExactDigits (n : ℕ) (l : List Char) : Option (List Char × List Char) :=
  let ds := l.take n
  if ds.length = n ∧ ds.all isDigitCh then some (ds, l.drop n) else none

/-- All parses of `\d{1,2}\/\d{1,2}\/\d{2,4}` at the head of the list, in the
JS engine's greedy backtracking order (longest day, then month, then year
first); each entry is (matched characters, rest). -/
def dateCands (l : List Char) : List (List Char × List Char) :=
  ([2, 1].flatMap fun dl =>
    ([2, 1].flatMap fun ml =>
      ([4, 3, 2].filterMap fun yl =>
        match takeExactDigits dl l with
        | none => none
        | some (d, r1) =>
          match r1 with
          | '/' :: r2 =>
            match takeExactDigits ml r2 with
            | none => none
            | some (m, r3) =>
              match r3 with
              | '/' :: r4 =>
                match takeExactDigits yl r4 with
                | none => none
                | some (y, r5) => some (d ++ '/' :: m ++ '/' :: y, r5)
              | _ => none
          | _ => none)))

/-- The separator of the generic `período:` regex, `(?:a|até|ate|[-–—])`, in
alternation order; returns the rest after the separator. -/
def periodoSeps (l : List Char) : List (List Char) :=
  let low := l.map jsLowerChar
  (if isPreOf "a".data low then [l.drop 1] else []) ++
  (if isPreOf "até".data low then [l.drop 3] else []) ++
  (if isPreOf "ate".data low then [l.drop 3] else []) ++
  (match l with
   | c :: r => if c = '-' ∨ c = '–' ∨ c = '—' then [r] else []
   | [] => [])

/-- After date 1: `\s* sep \s* date2`; first combination in backtracking order
wins (whitespace and the separator alternatives are disjoint from digits, so
`\s*` never backtracks). -/
def periodoAfterDate1 (rest : List Char) : Option (List Char) :=
  let r1 := rest.dropWhile jsIsWS
  (periodoSeps r1).firstM (fun afterSep =>
    let r2 := afterSep.dropWhile jsIsWS
    (dateCands r2).head?.map (·.1))

/-- One attempt of the generic `período:` regex body at a fixed position
(the text right after `per[ií]odo:`): both date captures. -/
def periodoTryAt (after : List Char) : Option (List Char × List Char) :=
  let a := after.dropWhile jsIsWS
  (dateCands a).firstM (fun cand =>
    (periodoAfterDate1 cand.2).map (fun d2 => (cand.1, d2)))

/-- `per[ií]odo:` at the head of the (lowered) list. -/
def periodoKey (low : List Char) : Bool :=
  match low with
  | 'p' :: 'e' :: 'r' :: c :: 'o' :: 'd' :: 'o' :: ':' :: _ => c = 'i' ∨ c = 'í'
  | _ => false

/-- Leftmost-occurrence search of
`/per[ií]odo:\s*(\d{1,2}\/\d{1,2}\/\d{2,4})\s*(?:a|até|ate|[-–—])\s*(\d{1,2}\/\d{1,2}\/\d{2,4})/i`.
Both captures are digit/slash strings, unaffected by lowering. -/
def periodoLoop (lower : List Char) : ℕ → ℕ → Option (List Char × List Char)
  | _, 0 => none
  | i, fuel + 1 =>
    if periodoKey (lower.drop i) then
      match periodoTryAt (lower.drop (i + 8)) with
      | some r => some r
      | none => periodoLoop lower (i + 1) fuel
    else if lower.length ≤ i then none
    else periodoLoop lower (i + 1) fuel

/-- The generic `período: d1 a d2` match, both captures. -/
def periodoCapture (text : String) : Option (String × String) :=
  (periodoLoop (text.data.map jsLowerChar) 0 (text.data.length + 1)).map
    (fun r => (String.mk r.1, String.mk r.2))

/-- The unanchored Domínio period regex
`/(\d{1,2}\/\d{1,2}\/\d{2,4})\s*[-–—]\s*(\d{1,2}\/\d{1,2}\/\d{2,4})/`:
leftmost start, greedy candidates. -/
def dateRangeLoop (l : List Char) : ℕ → ℕ → Option (List Char × List Char)
  | _, 0 => none
  | i, fuel + 1 =>
    match
      (dateCands (l.drop i)).firstM (fun cand =>
        match cand.2.dropWhile jsIsWS with
        | c :: r =>
          if c = '-' ∨ c = '–' ∨ c = '—' then
            (dateCands (r.dropWhile jsIsWS)).head?.map (fun d2 => (cand.1, d2.1))
          else none
        | [] => none)
    with
    | some r => some r
    | none =>
      if l.length ≤ i then none
      else dateRangeLoop l (i + 1) fuel

/-- Search for a `dd/mm/yyyy - dd/mm/yyyy` range anywhere in the string. -/
def dateRangeSearch (s : String) : Option (String × String) :=
  (dateRangeLoop s.data 0 (s.data.length + 1)).map
    (fun r => (String.mk r.1, String.mk r.2))

/-- JS falsiness of a nullable string (`!companyName`). -/
def optFalsy (o : Option String) : Bool :=
  match o with
  | none => true
  | some s => s.isEmpty

/-- `.replace('í', 'i')` (first occurrence). -/
def replaceAccentI (s : String) : String :=
  String.mk (replaceFirstChar s.data 'í' 'i')

/-- One row of `extractHeaderInfo`: the two Domínio fixed-position branches
(`Empresa:` / `Período:` in column 0, value in column 2), then the generic
free-text regex matches. -/
def headerInfoStep (st : Option String × Option String × Option String)
    (row : RawRow) : Option String × Option String × Option String :=
  if cellTruthy (rowGet row 0) ∧ jsToLower (jsTrim (jsCellString (rowGet row 0))) = "empresa:" then
    let v := jsTrim (jsCellString (rowGet row 2))
    (if v.isEmpty then none else some v, st.2.1, st.2.2)
  else if cellTruthy (rowGet row 0) ∧
      replaceAccentI (jsToLower (jsTrim (jsCellString (rowGet row 0)))) = "periodo:" then
    let periodoStr := jsTrim (jsCellString (rowGet row 2))
    match dateRangeSearch periodoStr with
    | some (d1, d2) => (st.1, parseBrDate d1, parseBrDate d2)
    | none => st
  else
    let text := jsTrim (joinSpace (row.map jsCellString))
    let cn := match empresaCapture text with
      | some cap => if optFalsy st.1 then some (jsTrim cap) else st.1
      | none => st.1
    match periodoCapture text with
    | some (d1, d2) =>
      if optFalsy st.2.1 then (cn, parseBrDate d1, parseBrDate d2) else (cn, st.2.1, st.2.2)
    | none => (cn, st.2.1, st.2.2)

/-- `extractHeaderInfo`: company name and period range from the first 20 rows. -/
def extractHeaderInfo (rows : List RawRow) :
    Option String × Option String × Option String :=
  (rows.take 20).foldl headerInfoStep (none, none, none)

/-- `entries.reduce((sum, e) => sum + e.debit, 0)`. -/
def sumDebits (es : List LedgerEntry) : ℚ := es.foldl (fun s e => s + e.debit) 0

/-- `entries.reduce((sum, e) => sum + e.credit, 0)`. -/
def sumCredits (es : List LedgerEntry) : ℚ := es.foldl (fun s e => s + e.credit) 0

/-- `finalizeAccount` from razao-importer.ts, as a pure update: derive totals
from the entries when both are still zero; when the closing balance is still
zero, take the last entry's balance if that is non-zero. -/
def finalizeAccount (account : LedgerAccount) : LedgerAccount :=
  let a1 :=
    if account.totalDebits = 0 ∧ account.totalCredits = 0 then
      { account with
        totalDebits := sumDebits account.entries
        totalCredits := sumCredits account.entries }
    else account
  if a1.closingBalance = 0 then
    match a1.entries.getLast? with
    | some lastE => if lastE.balance ≠ 0 then { a1 with closingBalance := lastE.balance } else a1
    | none => a1
  else a1

/-- The fresh account record built at an account-header row. -/
def mkNewAccount (code name : String) : LedgerAccount :=
  { code := code
    name := name
    fullLabel := code ++ " - " ++ name
    level := getAccountLevel code
    entries := []
    openingBalance := 0
    closingBalance := 0
    totalDebits := 0
    totalCredits := 0
    accountType := classifyAccountByCode code }

/-- State of the row-classification loop of `parseLedger`: emitted accounts and
the account currently being assembled. -/
structure ParseState where
  accounts : List LedgerAccount
  current : Option LedgerAccount
deriving DecidableEq

/-- One row of the `parseLedger` loop, in the source's precedence order:
blank row, page header, column-header row, account header, saldo/totals row,
transaction row, anything else skipped. -/
def parseLedgerStep (config : ColumnConfig) (st : ParseState) (row : RawRow) :
    ParseState :=
  if row.all (fun c => c = Cell.null ∨ (jsTrim (jsCellString c)).isEmpty) then st
  else if isPageHeader row then st
  else if isColumnHeaderRow row then st
  else
    match detectAccountHeader row with
    | some hdr =>
      { accounts :=
          match st.current with
          | some cur => st.accounts ++ [finalizeAccount cur]
          | none => st.accounts
        current := some (mkNewAccount hdr.1 hdr.2) }
    | none =>
      match st.current with
      | none => st
      | some cur =>
        match isSaldoOrTotalLine row with
        | some saldoType =>
          let cur1 :=
            if jsIncludes saldoType "anterior" ∨ jsIncludes saldoType "inicial" then
              { cur with openingBalance := extractBalanceFromRow row config }
            else if jsIncludes saldoType "final" then
              { cur with closingBalance := extractBalanceFromRow row config }
            else cur
          let cur2 :=
            if jsIncludes saldoType "totais" ∨ jsIncludes saldoType "total" then
              let debit := if config.debitCol ≥ 0 then parseNumericCell (rowGet row config.debitCol) else 0
              let credit := if config.creditCol ≥ 0 then parseNumericCell (rowGet row config.creditCol) else 0
              let t1 := if debit > 0 then { cur1 with totalDebits := debit } else cur1
              if credit > 0 then { t1 with totalCredits := credit } else t1
            else cur1
          { st with current := some cur2 }
        | none =>
          let dateCell := if config.dateCol ≥ 0 then rowGet row config.dateCol else Cell.null
          if dateCell ≠ Cell.null ∧ isDateCell dateCell then
            let entry : LedgerEntry :=
              { date := extractDate dateCell
                description :=
                  if config.descriptionCol ≥ 0
                  then jsTrim (jsCellString (rowGet row config.descriptionCol)) else ""
                debit := if config.debitCol ≥ 0 then parseNumericCell (rowGet row config.debitCol) else 0
                credit := if config.creditCol ≥ 0 then parseNumericCell (rowGet row config.creditCol) else 0
                balance :=
                  if config.balanceExCol ≥ 0 then parseNumericCell (rowGet row config.balanceExCol)
                  else if config.balanceCol ≥ 0 then parseNumericCell (rowGet row config.balanceCol)
                  else 0
                balanceType := none }
            { st with current := some { cur with entries := cur.entries ++ [entry] } }
          else st

/-- The account list assembled by `parseLedger` before deduplication (the local
`accounts` array right after the loop and the final `finalizeAccount`). -/
def parseLedgerFragments (rows : List RawRow) (config : ColumnConfig) :
    List LedgerAccount :=
  let st := rows.foldl (parseLedgerStep config) ⟨[], none⟩
  match st.current with
  | some cur => st.accounts ++ [finalizeAccount cur]
  | none => st.accounts

/-- Stable insertion of an entry after all entries with date ≤ its date:
one step of the stable `entries.sort((a, b) => a.date.localeCompare(b.date))`
(for the ISO digit/dash dates the importer produces, `localeCompare` agrees
with code-unit order). -/
def insertEntryByDate (e : LedgerEntry) : List LedgerEntry → List LedgerEntry
  | [] => [e]
  | f :: rest =>
    if jsStrLe f.date e.date then f :: insertEntryByDate e rest else e :: f :: rest

/-- The stable sort of entries by date used by `deduplicateAccounts`.  A stable
sort is unique for a total preorder, so insertion sort is exactly the JS
`Array.prototype.sort` (stable per the ECMAScript specification). -/
def sortEntriesByDate (l : List LedgerEntry) : List LedgerEntry :=
  l.foldl (fun acc e => insertEntryByDate e acc) []

/-- The merge performed by `deduplicateAccounts` when a code is already in the
map: concatenate entries, sum totals, later non-zero closing balance wins,
first non-zero opening balance is kept, longer name wins. -/
def mergeAccounts (existing acc : LedgerAccount) : LedgerAccount :=
  { existing with
    entries := existing.entries ++ acc.entries
    totalDebits := existing.totalDebits + acc.totalDebits
    totalCredits := existing.totalCredits + acc.totalCredits
    closingBalance :=
      if acc.closingBalance ≠ 0 then acc.closingBalance else existing.closingBalance
    openingBalance :=
      if existing.openingBalance = 0 ∧ acc.openingBalance ≠ 0
      then acc.openingBalance else existing.openingBalance
    name := if acc.name.length > existing.name.length then acc.name else existing.name
    fullLabel :=
      if acc.name.length > existing.name.length
      then acc.code ++ " - " ++ acc.name else existing.fullLabel }

/-- One `map.set`/merge step of `deduplicateAccounts`; the insertion-ordered
JS `Map` keyed by code is an association list (new codes appended at the end). -/
def dedupInsert : List LedgerAccount → LedgerAccount → List LedgerAccount
  | [], acc => [acc]
  | e :: rest, acc =>
    if e.code = acc.code then mergeAccounts e acc :: rest
    else e :: dedupInsert rest acc

/-- `deduplicateAccounts` from razao-importer.ts: merge accounts sharing a
code, then re-sort every account's entries by date. -/
def deduplicateAccounts (accounts : List LedgerAccount) : List LedgerAccount :=
  (accounts.foldl dedupInsert []).map
    (fun acc => { acc with entries := sortEntriesByDate acc.entries })

/-- `parseLedger` from razao-importer.ts (the progress callback is a pure side
channel with no effect on the result and is not modelled). -/
def parseLedger (rows : List RawRow) (config : ColumnConfig) : ParsedLedger :=
  let hdr := extractHeaderInfo rows
  let dedupAccounts := deduplicateAccounts (parseLedgerFragments rows config)
  { companyName := hdr.1
    periodStart := hdr.2.1
    periodEnd := hdr.2.2
    accounts := dedupAccounts
    rawRowCount := rows.length
    parseWarnings :=
      if dedupAccounts.isEmpty
      then ["Nenhuma conta contábil foi detectada. Verifique o formato do arquivo."]
      else [] }

/-- Target statement of a `LedgerMapping`. -/
inductive TargetStatement where
  | income_statement | balance_sheet | ignore
deriving DecidableEq

/-- `LedgerMapping`, from the `src/domain/ledger` declarations included in
src/src/store/valuation-store.ts (line 1393).  `sign` is `1 | -1` in the TS
type. -/
structure LedgerMapping where
  accountCode : String
  accountName : String
  targetField : String
  targetStatement : TargetStatement
  sign : ℚ
  autoDetected : Bool
deriving DecidableEq

/-- `StatementPeriod` — year, optional month (1–12), start/end ISO date; from
the `src/domain` declarations included in src/src/store/valuation-store.ts
(line 990). -/
structure StatementPeriod where
  year : ℤ
  month : Option ℤ
  startDate : String
  endDate : String
deriving DecidableEq

/-- `IncomeStatement` (DRE), from the `src/domain` declarations included in
src/src/store/valuation-store.ts (line 1002); fields as written by the
aggregator. -/
structure IncomeStatement where
  period : StatementPeriod
  grossRevenue : ℚ
  deductions : ℚ
  netRevenue : ℚ
  cogs : ℚ
  grossProfit : ℚ
  sgaExpenses : ℚ
  depreciation : ℚ
  otherOperating : ℚ
  ebit : ℚ
  financialResult : ℚ
  ebt : ℚ
  incomeTax : ℚ
  netIncome : ℚ
deriving DecidableEq

/-- `BalanceSheet`, from the `src/domain` declarations included in
src/src/store/valuation-store.ts (line 1020); fields as written by the
aggregator. -/
structure BalanceSheet where
  period : StatementPeriod
  operatingCash : ℚ
  nonOperatingCash : ℚ
  accountsReceivable : ℚ
  inventory : ℚ
  otherCurrentAssets : ℚ
  ppe : ℚ
  intangibles : ℚ
  otherNonCurrentAssets : ℚ
  totalAssets : ℚ
  accountsPayable : ℚ
  otherOperatingLiabilities : ℚ
  shortTermDebt : ℚ
  longTermDebt : ℚ
  otherNonCurrentLiabilities : ℚ
  totalLiabilities : ℚ
  equity : ℚ
deriving DecidableEq

/-- The ordered rule chain of `autoMapAccounts` from razao-aggregator.ts
(first match wins), returning target field and statement; no match returns
`("", ignore)`. -/
def autoMapRule (acc : LedgerAccount) : String × TargetStatement :=
  let code := acc.code
  let nameLower := jsToLower acc.name
  if jsStarts code "3.1" ∨ jsIncludes nameLower "receita bruta" ∨
     jsIncludes nameLower "receita de venda" then
    ("grossRevenue", .income_statement)
  else if jsStarts code "3." ∧ (jsIncludes nameLower "deduç" ∨ jsIncludes nameLower "deduc" ∨
      jsIncludes nameLower "imposto sobre" ∨ jsIncludes nameLower "icms" ∨
      jsIncludes nameLower "pis" ∨ jsIncludes nameLower "cofins" ∨
      jsIncludes nameLower "iss") then
    ("deductions", .income_statement)
  else if jsStarts code "4.1" ∨ jsIncludes nameLower "custo" ∨
      jsIncludes nameLower "cmv" ∨ jsIncludes nameLower "cpv" then
    ("cogs", .income_statement)
  else if jsStarts code "4.2" ∨ (jsStarts code "4." ∧ (jsIncludes nameLower "despesa" ∧
      (jsIncludes nameLower "admin" ∨ jsIncludes nameLower "venda" ∨
       jsIncludes nameLower "gera"))) then
    ("sgaExpenses", .income_statement)
  else if jsIncludes nameLower "deprecia" ∨ jsIncludes nameLower "amortiza" then
    ("depreciation", .income_statement)
  else if jsIncludes nameLower "financeira" ∨ jsIncludes nameLower "financeiro" ∨
      jsIncludes nameLower "juros" then
    ("financialResult", .income_statement)
  else if jsIncludes nameLower "imposto de renda" ∨ jsIncludes nameLower "ir " ∨
      jsIncludes nameLower "csll" ∨ jsIncludes nameLower "contribuição social" then
    ("incomeTax", .income_statement)
  else if jsStarts code "1.1.01" ∨ (jsStarts code "1.1" ∧ (jsIncludes nameLower "caixa" ∨
      jsIncludes nameLower "banco" ∨ jsIncludes nameLower "disponibilidade")) then
    ("operatingCash", .balance_sheet)
  else if jsStarts code "1.1" ∧ (jsIncludes nameLower "aplicaç" ∨
      jsIncludes nameLower "aplicac") then
    ("nonOperatingCash", .balance_sheet)
  else if jsStarts code "1.1" ∧ (jsIncludes nameLower "receber" ∨
      jsIncludes nameLower "cliente" ∨ jsIncludes nameLower "duplicata") then
    ("accountsReceivable", .balance_sheet)
  else if jsStarts code "1.1" ∧ (jsIncludes nameLower "estoque" ∨
      jsIncludes nameLower "mercadoria" ∨ jsIncludes nameLower "produto") then
    ("inventory", .balance_sheet)
  else if jsStarts code "1.2" ∧ (jsIncludes nameLower "imobilizado" ∨
      jsIncludes nameLower "máquina" ∨ jsIncludes nameLower "maquina" ∨
      jsIncludes nameLower "equip" ∨ jsIncludes nameLower "veículo" ∨
      jsIncludes nameLower "veiculo") then
    ("ppe", .balance_sheet)
  else if jsStarts code "1.2" ∧ (jsIncludes nameLower "intangível" ∨
      jsIncludes nameLower "intangivel" ∨ jsIncludes nameLower "software" ∨
      jsIncludes nameLower "marca") then
    ("intangibles", .balance_sheet)
  else if jsStarts code "1.1" then ("otherCurrentAssets", .balance_sheet)
  else if jsStarts code "1.2" then ("otherNonCurrentAssets", .balance_sheet)
  else if jsStarts code "2.1" ∧ (jsIncludes nameLower "fornecedor" ∨
      jsIncludes nameLower "pagar") then
    ("accountsPayable", .balance_sheet)
  else if jsStarts code "2.1" ∧ (jsIncludes nameLower "empréstimo" ∨
      jsIncludes nameLower "emprestimo" ∨ jsIncludes nameLower "financiamento") then
    ("shortTermDebt", .balance_sheet)
  else if jsStarts code "2.2" ∧ (jsIncludes nameLower "empréstimo" ∨
      jsIncludes nameLower "emprestimo" ∨ jsIncludes nameLower "financiamento" ∨
      jsIncludes nameLower "debênture" ∨ jsIncludes nameLower "debenture") then
    ("longTermDebt", .balance_sheet)
  else if jsStarts code "2.1" then ("otherOperatingLiabilities", .balance_sheet)
  else if jsStarts code "2.2" then ("otherNonCurrentLiabilities", .balance_sheet)
  else if jsStarts code "2.3" ∨ jsStarts code "2.4" ∨ (jsStarts code "2." ∧
      (jsIncludes nameLower "patrimônio" ∨ jsIncludes nameLower "patrimonio" ∨
       jsIncludes nameLower "capital social" ∨ jsIncludes nameLower "reserva" ∨
       jsIncludes nameLower "lucros acumulados")) then
    ("equity", .balance_sheet)
  else ("", .ignore)

/-- The mapping record `autoMapAccounts` pushes for one account. -/
def autoMapOne (acc : LedgerAccount) : LedgerMapping :=
  let r := autoMapRule acc
  { accountCode := acc.code
    accountName := acc.name
    targetField := r.1
    targetStatement := if r.1 ≠ "" then r.2 else .ignore
    sign := 1
    autoDetected := r.1 ≠ "" }

/-- `autoMapAccounts` from razao-aggregator.ts. -/
def autoMapAccounts (accounts : List LedgerAccount) : List LedgerMapping :=
  accounts.map autoMapOne

/-- `ledger.accounts.find((a) => a.code === mapping.accountCode)`. -/
def findAccount (ledger : ParsedLedger) (code : String) : Option LedgerAccount :=
  ledger.accounts.find? (fun a => a.code == code)

/-- `computeBalanceSheetValue` from razao-aggregator.ts: non-zero closing
balance (absolute value for credit-natured accounts), with an
opening-plus-movement fallback when the closing balance is zero. -/
def computeBalanceSheetValue (account : LedgerAccount) : ℚ :=
  match account.accountType with
  | .asset =>
    if account.closingBalance ≠ 0 then account.closingBalance
    else account.openingBalance + account.totalDebits - account.totalCredits
  | .liability | .equity =>
    if account.closingBalance ≠ 0 then |account.closingBalance|
    else account.openingBalance + account.totalCredits - account.totalDebits
  | _ => |account.closingBalance|

/-- `values[field] += v` on the accumulator record (modelled as a function from
field names; the assembly below only reads the statement's fixed keys, exactly
as the source only reads the keys it initialised). -/
def updValues (g : String → ℚ) (f : String) (v : ℚ) : String → ℚ :=
  fun k => if k = f then g k + v else g k

/-- One loop iteration of `aggregateToBalanceSheet`. -/
def bsValuesStep (ledger : ParsedLedger) (g : String → ℚ) (m : LedgerMapping) :
    String → ℚ :=
  if m.targetStatement ≠ .balance_sheet ∨ m.targetField = "" then g
  else
    match findAccount ledger m.accountCode with
    | none => g
    | some account => updValues g m.targetField (computeBalanceSheetValue account * m.sign)

/-- The `values` accumulator of `aggregateToBalanceSheet` after the loop. -/
def bsValues (ledger : ParsedLedger) (mappings : List LedgerMapping) : String → ℚ :=
  mappings.foldl (bsValuesStep ledger) (fun _ => 0)

/-- Assembly of a `BalanceSheet` from the accumulated values (shared verbatim
by the single-period and the monthly aggregator in the source). -/
def buildBalanceSheet (period : StatementPeriod) (v : String → ℚ) : BalanceSheet :=
  let totalAssets := v "operatingCash" + v "nonOperatingCash" +
    v "accountsReceivable" + v "inventory" + v "otherCurrentAssets" +
    v "ppe" + v "intangibles" + v "otherNonCurrentAssets"
  let totalLiabilities := v "accountsPayable" + v "otherOperatingLiabilities" +
    v "shortTermDebt" + v "longTermDebt" + v "otherNonCurrentLiabilities"
  { period := period
    operatingCash := v "operatingCash"
    nonOperatingCash := v "nonOperatingCash"
    accountsReceivable := v "accountsReceivable"
    inventory := v "inventory"
    otherCurrentAssets := v "otherCurrentAssets"
    ppe := v "ppe"
    intangibles := v "intangibles"
    otherNonCurrentAssets := v "otherNonCurrentAssets"
    totalAssets := totalAssets
    accountsPayable := v "accountsPayable"
    otherOperatingLiabilities := v "otherOperatingLiabilities"
    shortTermDebt := v "shortTermDebt"
    longTermDebt := v "longTermDebt"
    otherNonCurrentLiabilities := v "otherNonCurrentLiabilities"
    totalLiabilities := totalLiabilities
    equity := v "equity" }

/-- JS `parseInt` (decimal): skip whitespace, optional sign, leading digits;
`none` models NaN. -/
def jsParseIntZ (s : String) : Option ℤ :=
  let l := s.data.dropWhile jsIsWS
  let p := match l with
    | '-' :: r => ((-1 : ℤ), r)
    | '+' :: r => ((1 : ℤ), r)
    | _ => ((1 : ℤ), l)
  let ds := p.2.takeWhile isDigitCh
  if ds.isEmpty then none else some (p.1 * (digitsToNat ds : ℤ))

/-- JS `s.substring(a, b)` (for `a ≤ b`). -/
def jsSubstring (s : String) (a b : ℕ) : String :=
  String.mk ((s.data.drop a).take (b - a))

/-- The year stamped on a single-period statement:
`new Date(ledger.periodEnd).getFullYear()` for an ISO `yyyy-…` string, i.e. its
leading year digits.  (For a missing period end the source reads the wall
clock, which has no place in a pure model; no claim concerns the period
stamp.) -/
def yearOfLedgerEnd (ledger : ParsedLedger) : ℤ :=
  match ledger.periodEnd with
  | some s => (jsParseIntZ (jsSubstring s 0 4)).getD 0
  | none => 0

/-- The `StatementPeriod` of a single-period statement. -/
def periodOfLedger (ledger : ParsedLedger) : StatementPeriod :=
  let year := yearOfLedgerEnd ledger
  { year := year
    month := none
    startDate := ledger.periodStart.getD (intToStr year ++ "-01-01")
    endDate := ledger.periodEnd.getD (intToStr year ++ "-12-31") }

/-- `aggregateToBalanceSheet` from razao-aggregator.ts. -/
def aggregateToBalanceSheet (ledger : ParsedLedger) (mappings : List LedgerMapping) :
    BalanceSheet :=
  buildBalanceSheet (periodOfLedger ledger) (bsValues ledger mappings)

/-- JS leap-year rule (as implemented by `Date`). -/
def isLeapYear (y : ℤ) : Bool :=
  y % 4 = 0 && (y % 100 ≠ 0 || y % 400 = 0)

/-- `new Date(year, month, 0).getDate()`: last day of the month, for month
numbers 1..12 (the only values the month enumeration produces). -/
def lastDayOfMonth (y m : ℤ) : ℤ :=
  if m = 2 then (if isLeapYear y then 29 else 28)
  else if m = 4 ∨ m = 6 ∨ m = 9 ∨ m = 11 then 30
  else 31

/-- `` `${y}-${String(m).padStart(2, '0')}` ``. -/
def fmtYM (y m : ℤ) : String := intToStr y ++ "-" ++ padStart2 (intToStr m)

/-- The month-enumeration loop of `allMonthsInRange`
(`while (y < endYear || (y === endYear && m <= endMonth)) …`), fuel-structural
so the kernel can evaluate it; the fuel passed below dominates the iteration
count, so the result is exactly the JS loop's. -/
def monthsLoopAux : ℕ → ℤ → ℤ → ℤ → ℤ → List String
  | 0, _, _, _, _ => []
  | fuel + 1, y, m, endY, endM =>
    if y < endY ∨ (y = endY ∧ m ≤ endM) then
      fmtYM y m ::
        (if m + 1 > 12 then monthsLoopAux fuel (y + 1) 1 endY endM
         else monthsLoopAux fuel y (m + 1) endY endM)
    else []

/-- The month list from parsed start/end year and month. -/
def monthsRange (startY startM endY endM : ℤ) : List String :=
  monthsLoopAux ((endY - startY).toNat * 13 + startM.natAbs + 40) startY startM endY endM

/-- Stable string insertion (one step of the JS default `Array.sort`, which
compares UTF-16 code units; only the extremes of the sorted list are used). -/
def insertString (s : String) : List String → List String
  | [] => [s]
  | t :: rest => if jsStrLe t s then t :: insertString s rest else s :: t :: rest

/-- JS `dates.sort()`. -/
def sortStrings (l : List String) : List String :=
  l.foldl (fun acc s => insertString s acc) []

/-- The year/month bounds part of `allMonthsInRange`: parse
`substring(0,4)`/`substring(5,7)` of both bounds and run the loop.  A NaN year
bound makes the JS loop condition false immediately (empty result); a NaN end
month makes `m <= endMonth` permanently false, which `-100` reproduces (months
only count upwards from a two-character parse ≥ -9); a NaN start month with
valid years makes the source spin forever and is not modelled (unreachable
from well-formed ledgers). -/
def monthsFromBounds (start endv : String) : List String :=
  match jsParseIntZ (jsSubstring start 0 4), jsParseIntZ (jsSubstring endv 0 4) with
  | some sy, some ey =>
    match jsParseIntZ (jsSubstring start 5 7) with
    | none => []
    | some sm =>
      let em := (jsParseIntZ (jsSubstring endv 5 7)).getD (-100)
      monthsRange sy sm ey em
  | _, _ => []

/-- `allMonthsInRange` from razao-aggregator.ts: ledger period bounds, with an
entry-date fallback (sorted entry dates' extremes) when either is missing. -/
def allMonthsInRange (ledger : ParsedLedger) : List String :=
  let start0 := ledger.periodStart
  let end0 := ledger.periodEnd
  if optFalsy start0 ∨ optFalsy end0 then
    let dates := ledger.accounts.flatMap
      (fun acc => acc.entries.filterMap
        (fun e => if ¬ e.date.isEmpty ∧ e.date.length ≥ 7 then some e.date else none))
    if dates.isEmpty then []
    else
      let sorted := sortStrings dates
      let start := if optFalsy start0 then sorted.headD "" else start0.getD ""
      let endv := if optFalsy end0 then sorted.getLastD "" else end0.getD ""
      monthsFromBounds start endv
  else monthsFromBounds (start0.getD "") (end0.getD "")

/-- `ym.split('-')` destructured into year and month numbers (NaN propagation
for malformed labels is not modelled: labels from `allMonthsInRange` over the
non-negative years of real ledgers are always well-formed `yyyy-mm`). -/
def ymParts (ym : String) : ℤ × ℤ :=
  let parts := jsSplitChar ym '-'
  ((jsParseIntZ (parts.headD "")).getD 0, (jsParseIntZ (parts.getD 1 "")).getD 0)

/-- The month-end date string `` `${ym}-${String(lastDay).padStart(2, '0')}` ``. -/
def monthEndDate (ym : String) : String :=
  let p := ymParts ym
  ym ++ "-" ++ padStart2 (intToStr (lastDayOfMonth p.1 p.2))

/-- The `StatementPeriod` of one month row. -/
def monthPeriod (ym : String) : StatementPeriod :=
  let p := ymParts ym
  { year := p.1, month := some p.2, startDate := ym ++ "-01", endDate := monthEndDate ym }

/-- Assembly of an `IncomeStatement` from accumulated values, with the derived
cascade (`netRevenue`, `grossProfit`, `ebit`, `ebt`, `netIncome`) exactly as in
the source. -/
def buildIncomeStatement (period : StatementPeriod) (v : String → ℚ) : IncomeStatement :=
  let grossRevenue := v "grossRevenue"
  let deductions := v "deductions"
  let netRevenue := grossRevenue - deductions
  let cogs := v "cogs"
  let grossProfit := netRevenue - cogs
  let sgaExpenses := v "sgaExpenses"
  let depreciation := v "depreciation"
  let otherOperating := v "otherOperating"
  let ebit := grossProfit - sgaExpenses - depreciation + otherOperating
  let financialResult := v "financialResult"
  let ebt := ebit + financialResult
  let incomeTax := v "incomeTax"
  let netIncome := ebt - incomeTax
  { period := period
    grossRevenue := grossRevenue
    deductions := deductions
    netRevenue := netRevenue
    cogs := cogs
    grossProfit := grossProfit
    sgaExpenses := sgaExpenses
    depreciation := depreciation
    otherOperating := otherOperating
    ebit := ebit
    financialResult := financialResult
    ebt := ebt
    incomeTax := incomeTax
    netIncome := netIncome }

/-- One mapping's contribution in a month of `aggregateToMonthlyIncomeStatements`:
the month's entries (dates starting with `ym`) folded with the credit/debit
nature logic. -/
def dreMonthStep (ledger : ParsedLedger) (ym : String) (g : String → ℚ)
    (m : LedgerMapping) : String → ℚ :=
  match findAccount ledger m.accountCode with
  | none => g
  | some account =>
    let monthEntries := account.entries.filter (fun e => jsStarts e.date ym)
    let value :=
      if account.accountType = .revenue
      then sumCredits monthEntries - sumDebits monthEntries
      else sumDebits monthEntries - sumCredits monthEntries
    updValues g m.targetField (value * m.sign)

/-- `aggregateToMonthlyIncomeStatements` from razao-aggregator.ts. -/
def aggregateToMonthlyIncomeStatements (ledger : ParsedLedger)
    (mappings : List LedgerMapping) : List IncomeStatement :=
  let dreMappings := mappings.filter
    (fun m => decide (m.targetStatement = .income_statement) && decide (m.targetField ≠ ""))
  let months := allMonthsInRange ledger
  if months.length = 0 then []
  else
    months.map (fun ym =>
      buildIncomeStatement (monthPeriod ym)
        (dreMappings.foldl (dreMonthStep ledger ym) (fun _ => 0)))

/-- One mapping's contribution in a month of `aggregateToMonthlyBalanceSheets`:
cumulative balance of all entries dated up to the month end. -/
def bsMonthStep (ledger : ParsedLedger) (endDate : String) (g : String → ℚ)
    (m : LedgerMapping) : String → ℚ :=
  match findAccount ledger m.accountCode with
  | none => g
  | some account =>
    let entriesUpToMonth := account.entries.filter (fun e => jsStrLe e.date endDate)
    let balance :=
      if account.accountType = .asset
      then account.openingBalance + sumDebits entriesUpToMonth - sumCredits entriesUpToMonth
      else |account.openingBalance| + sumCredits entriesUpToMonth - sumDebits entriesUpToMonth
    updValues g m.targetField (balance * m.sign)

/-- `aggregateToMonthlyBalanceSheets` from razao-aggregator.ts. -/
def aggregateToMonthlyBalanceSheets (ledger : ParsedLedger)
    (mappings : List LedgerMapping) : List BalanceSheet :=
  let bsMappings := mappings.filter
    (fun m => decide (m.targetStatement = .balance_sheet) && decide (m.targetField ≠ ""))
  let months := allMonthsInRange ledger
  if months.length = 0 then []
  else
    months.map (fun ym =>
      buildBalanceSheet (monthPeriod ym)
        (bsMappings.foldl (bsMonthStep ledger (monthEndDate ym)) (fun _ => 0)))

/-- `byYear.set` of `aggregateMonthlyToAnnual`: the insertion-ordered JS `Map`
as an association list, appending the month to its year's bucket. -/
def addToYear (m : IncomeStatement) :
    List (ℤ × List IncomeStatement) → List (ℤ × List IncomeStatement)
  | [] => [(m.period.year, [m])]
  | (y, g) :: rest =>
    if y = m.period.year then (y, g ++ [m]) :: rest
    else (y, g) :: addToYear m rest

/-- The `byYear` map of `aggregateMonthlyToAnnual`. -/
def groupByYear (monthly : List IncomeStatement) : List (ℤ × List IncomeStatement) :=
  monthly.foldl (fun acc m => addToYear m acc) []

/-- Stable insertion by year (one step of `.sort(([a], [b]) => a - b)`). -/
def insertYearGroup (p : ℤ × List IncomeStatement) :
    List (ℤ × List IncomeStatement) → List (ℤ × List IncomeStatement)
  | [] => [p]
  | q :: rest => if q.1 ≤ p.1 then q :: insertYearGroup p rest else p :: q :: rest

/-- `.sort(([a], [b]) => a - b)` on the year buckets. -/
def sortYearGroups (l : List (ℤ × List IncomeStatement)) :
    List (ℤ × List IncomeStatement) :=
  l.foldl (fun acc p => insertYearGroup p acc) []

/-- `months.reduce((s, m) => s + f(m), 0)`. -/
def sumField (months : List IncomeStatement) (f : IncomeStatement → ℚ) : ℚ :=
  months.foldl (fun s m => s + f m) 0

/-- The annual statement built from one year bucket of
`aggregateMonthlyToAnnual`: base fields summed over the year's months, derived
fields recomputed. -/
def annualOfGroup (p : ℤ × List IncomeStatement) : IncomeStatement :=
  let months := p.2
  let grossRevenue := sumField months (fun m => m.grossRevenue)
  let deductions := sumField months (fun m => m.deductions)
  let netRevenue := grossRevenue - deductions
  let cogs := sumField months (fun m => m.cogs)
  let grossProfit := netRevenue - cogs
  let sgaExpenses := sumField months (fun m => m.sgaExpenses)
  let depreciation := sumField months (fun m => m.depreciation)
  let otherOperating := sumField months (fun m => m.otherOperating)
  let ebit := grossProfit - sgaExpenses - depreciation + otherOperating
  let financialResult := sumField months (fun m => m.financialResult)
  let ebt := ebit + financialResult
  let incomeTax := sumField months (fun m => m.incomeTax)
  let netIncome := ebt - incomeTax
  { period := { year := p.1, month := none,
                startDate := intToStr p.1 ++ "-01-01",
                endDate := intToStr p.1 ++ "-12-31" }
    grossRevenue := grossRevenue
    deductions := deductions
    netRevenue := netRevenue
    cogs := cogs
    grossProfit := grossProfit
    sgaExpenses := sgaExpenses
    depreciation := depreciation
    otherOperating := otherOperating
    ebit := ebit
    financialResult := financialResult
    ebt := ebt
    incomeTax := incomeTax
    netIncome := netIncome }

/-- `aggregateMonthlyToAnnual` from razao-aggregator.ts. -/
def aggregateMonthlyToAnnual (monthly : List IncomeStatement) : List IncomeStatement :=
  (sortYearGroups (groupByYear monthly)).map annualOfGroup

/-!
## Binary (BIFF) fallback reader

Model of `parseBiffManual`/`parseSstBuffer`/`readRawRows` from
razao-importer.ts.  A byte buffer is a `List ℕ`; a JS out-of-range read
`buf[i]` yields `undefined`, which every arithmetic use site (`|`, `<<`,
`String.fromCharCode`) coerces to 0, so `byteGet` returns 0 out of range.
Two pieces of the environment are parameters: the compound-file extraction
(`XLSX.CFB`, an external library) is the `workbookStream : Option Bytes`
argument (`none` = stream not found or container unreadable), and IEEE-754
double decoding (`DataView.getFloat64`, a floating-point operation outside the
rational model) is an arbitrary interpretation `f64 : Bytes → ℚ` of the 8
bytes read; every claim settled here holds for all interpretations.
-/

/-- A raw byte buffer. -/
abbrev Bytes := List ℕ

/-- JS `buf[i]` with the out-of-range `undefined` coerced to 0 (see above). -/
def byteGet (b : Bytes) (i : ℕ) : ℕ := b.getD i 0

/-- `u16le` from razao-importer.ts. -/
def u16le (b : Bytes) (off : ℕ) : ℕ := byteGet b off + byteGet b (off + 1) * 256

/-- `u32le` from razao-importer.ts (the `>>> 0` makes it unsigned). -/
def u32le (b : Bytes) (off : ℕ) : ℕ :=
  byteGet b off + byteGet b (off + 1) * 256 + byteGet b (off + 2) * 65536 +
    byteGet b (off + 3) * 16777216

/-- `String.fromCharCode` (UTF-16 code unit; a lone surrogate has no Lean
`Char` and maps to NUL, which no claim observes). -/
def charFromCode (n : ℕ) : Char := Char.ofNat n

/-- Wide (UTF-16LE) character run of the SST reader: up to `count` characters
while `pos + 1 < buf.length`; returns the characters and the final position. -/
def readWideChars : ℕ → Bytes → ℕ → List Char × ℕ
  | 0, _, pos => ([], pos)
  | k + 1, buf, pos =>
    if pos + 1 < buf.length then
      let r := readWideChars k buf (pos + 2)
      (charFromCode (u16le buf pos) :: r.1, r.2)
    else ([], pos)

/-- Narrow (8-bit) character run of the SST reader. -/
def readNarrowChars : ℕ → Bytes → ℕ → List Char × ℕ
  | 0, _, pos => ([], pos)
  | k + 1, buf, pos =>
    if pos < buf.length then
      let r := readNarrowChars k buf (pos + 1)
      (charFromCode (byteGet buf pos) :: r.1, r.2)
    else ([], pos)

/-- One iteration of `parseSstBuffer`'s while loop, fuel-structural (each
iteration advances `pos` by at least 3, so the fuel below dominates the
iteration count).  The source's `try/catch` never fires: all reads are plain
indexing, which cannot throw. -/
def sstLoopAux : ℕ → Bytes → ℕ → List String → List String
  | 0, _, _, sst => sst
  | fuel + 1, buf, pos, sst =>
    if pos + 2 < buf.length then
      let charCount := u16le buf pos
      if charCount > 32767 then sst
      else
        let flags := byteGet buf (pos + 2)
        let p0 := pos + 3
        let isWide := flags % 2 = 1
        let hasRichText := flags / 8 % 2 = 1
        let hasExtended := flags / 4 % 2 = 1
        let rtRuns := if hasRichText then u16le buf p0 else 0
        let p1 := if hasRichText then p0 + 2 else p0
        let extSize := if hasExtended then u32le buf p1 else 0
        let p2 := if hasExtended then p1 + 4 else p1
        let rd := if isWide then readWideChars charCount buf p2
                  else readNarrowChars charCount buf p2
        let p3 := rd.2 + (if hasRichText then rtRuns * 4 else 0) +
                  (if hasExtended then extSize else 0)
        sstLoopAux fuel buf p3 (sst ++ [String.mk rd.1])
    else sst

/-- `parseSstBuffer` from razao-importer.ts (appends to the accumulated SST;
starts at position 8, past the total/unique counts). -/
def parseSstBuffer (buf : Bytes) (sst : List String) : List String :=
  sstLoopAux (buf.length + 1) buf 8 sst

/-- JS sparse-array assignment `row[col] = v`: pad with holes (read back as
`undefined` ≡ `Cell.null`) and set. -/
def rowSetCell (row : RawRow) (c : ℕ) (v : Cell) : RawRow :=
  let padded :=
    if row.length ≤ c then row ++ List.replicate (c + 1 - row.length) Cell.null
    else row
  padded.set c v

/-- `rowsMap[row][col] = v` on the sparse row map (`Record<number, RawRow>`). -/
def mapSetCell : List (ℕ × RawRow) → ℕ → ℕ → Cell → List (ℕ × RawRow)
  | [], r, c, v => [(r, rowSetCell [] c v)]
  | (ri, row) :: rest, r, c, v =>
    if ri = r then (ri, rowSetCell row c v) :: rest
    else (ri, row) :: mapSetCell rest r c v

/-- `rowsMap[r]` lookup. -/
def mapGetRow (rm : List (ℕ × RawRow)) (r : ℕ) : Option RawRow :=
  (rm.find? (fun p => p.1 == r)).map (fun p => p.2)

/-- Sheet-name characters of a BoundSheet8 record, wide variant: condition
`nameStart + i*2 + 1 < offset + 4 + recLen` (reads beyond the buffer coerce to
NUL exactly as in JS). -/
def sheetNameWide : ℕ → Bytes → ℕ → ℕ → List Char
  | 0, _, _, _ => []
  | k + 1, data, p, limit =>
    if p + 1 < limit then charFromCode (u16le data p) :: sheetNameWide k data (p + 2) limit
    else []

/-- Sheet-name characters, narrow variant. -/
def sheetNameNarrow : ℕ → Bytes → ℕ → ℕ → List Char
  | 0, _, _, _ => []
  | k + 1, data, p, limit =>
    if p < limit then charFromCode (byteGet data p) :: sheetNameNarrow k data (p + 1) limit
    else []

/-- State of the record scan of `parseBiffManual`. -/
structure BiffState where
  rowsMap : List (ℕ × RawRow)
  sst : List String
  sheetNames : List String
  maxRow : ℕ
  sstBuf : Option Bytes
  lastRecType : ℕ

/-- The empty scan state. -/
def biffInit : BiffState :=
  { rowsMap := [], sst := [], sheetNames := [], maxRow := 0,
    sstBuf := none, lastRecType := 0 }

/-- The four cell-record branches (LABELSST 0x00FD, NUMBER 0x0203, RK 0x027E,
LABEL 0x0204) of the scan.  The NUMBER branch is the one place the source can
throw: `DataView.getFloat64(6)` raises a `RangeError` when the record is
truncated to fewer than 14 bytes at the end of the buffer (the `recLen >= 14`
guard checks the declared length, not the available bytes). -/
def applyCellRecord (f64 : Bytes → ℚ) (recType recLen : ℕ) (recData : Bytes)
    (st : BiffState) : Except String BiffState :=
  if recType = 0x0203 ∧ recLen ≥ 14 ∧ recData.length < 14 then
    .error "RangeError: getFloat64 beyond the record"
  else
    let st :=
      if recType = 0x00FD ∧ recLen ≥ 10 then
        let row := u16le recData 0
        let col := u16le recData 2
        let sstIdx := u32le recData 6
        let v := Cell.str (if sstIdx < st.sst.length then st.sst.getD sstIdx "" else "")
        { st with rowsMap := mapSetCell st.rowsMap row col v,
                  maxRow := max st.maxRow row }
      else st
    let st :=
      if recType = 0x0203 ∧ recLen ≥ 14 then
        let row := u16le recData 0
        let col := u16le recData 2
        let v := Cell.num (f64 ((recData.drop 6).take 8))
        { st with rowsMap := mapSetCell st.rowsMap row col v,
                  maxRow := max st.maxRow row }
      else st
    let st :=
      if recType = 0x027E ∧ recLen ≥ 10 then
        let row := u16le recData 0
        let col := u16le recData 2
        let s := u32le recData 6
        -- `rk >> 2` is an arithmetic shift of the signed 32-bit value
        let rkSigned : ℤ := if s ≥ 2 ^ 31 then (s : ℤ) - 2 ^ 32 else (s : ℤ)
        let v0 : ℚ :=
          if s / 2 % 2 = 1 then ((Int.fdiv rkSigned 4 : ℤ) : ℚ)
          else
            -- IEEE-754 double rebuilt from the high 30 bits (`rk & 0xFFFFFFFC`)
            f64 [0, 0, 0, 0, s % 256 / 4 * 4, s / 256 % 256,
                 s / 65536 % 256, s / 16777216 % 256]
        let v := if s % 2 = 1 then v0 / 100 else v0
        { st with rowsMap := mapSetCell st.rowsMap row col (Cell.num v),
                  maxRow := max st.maxRow row }
      else st
    let st :=
      if recType = 0x0204 ∧ recLen ≥ 8 then
        let row := u16le recData 0
        let col := u16le recData 2
        let strLen := u16le recData 6
        let chars := sheetNameNarrow strLen recData 8 recLen
        { st with rowsMap := mapSetCell st.rowsMap row col (Cell.str (String.mk chars)),
                  maxRow := max st.maxRow row }
      else st
    .ok st

/-- One record of the scan loop of `parseBiffManual`: BoundSheet8 names, the
SST/CONTINUE stitching state machine, then the cell records.  Fuel-structural
(the offset advances by at least 4 per record). -/
def scanRecordsAux (f64 : Bytes → ℚ) : ℕ → Bytes → ℕ → BiffState → Except String BiffState
  | 0, _, _, st => .ok st
  | fuel + 1, data, offset, st =>
    if offset + 4 ≤ data.length then
      let recType := u16le data offset
      let recLen := u16le data (offset + 2)
      if recType = 0 ∧ recLen = 0 then .ok st
      else
        let recData := (data.drop (offset + 4)).take recLen
        let st :=
          if recType = 0x0085 ∧ recLen ≥ 8 then
            let nameLen := byteGet data (offset + 4 + 6)
            let flags := byteGet data (offset + 4 + 7)
            let nameStart := offset + 4 + 8
            let limit := offset + 4 + recLen
            let chars :=
              if flags % 2 = 1 then sheetNameWide nameLen data nameStart limit
              else sheetNameNarrow nameLen data nameStart limit
            { st with sheetNames := st.sheetNames ++ [String.mk chars] }
          else st
        if recType = 0x00FC then
          scanRecordsAux f64 fuel data (offset + 4 + recLen)
            { st with sstBuf := some recData, lastRecType := 0x00FC }
        else if recType = 0x003C ∧ st.lastRecType = 0x00FC then
          let st :=
            { st with sstBuf :=
                match st.sstBuf with
                | some b => some (b ++ recData)
                | none => none }
          scanRecordsAux f64 fuel data (offset + 4 + recLen) st
        else
          let st :=
            if st.sstBuf.isSome ∧ st.lastRecType = 0x00FC then
              { st with sst := parseSstBuffer (st.sstBuf.getD []) st.sst, sstBuf := none }
            else st
          let st := { st with lastRecType := recType }
          match applyCellRecord f64 recType recLen recData st with
          | .error e => .error e
          | .ok st => scanRecordsAux f64 fuel data (offset + 4 + recLen) st
    else .ok st

/-- Materialisation of the sparse row map: rows 0..maxRow that exist, in
order; absent rows are omitted, not zero-filled. -/
def biffRows (st : BiffState) : List RawRow :=
  (List.range (st.maxRow + 1)).filterMap (fun r => mapGetRow st.rowsMap r)

/-- `parseBiffManual` from razao-importer.ts.  `workbookStream` is the
`/Workbook` (or `/Book`) stream extracted by the external CFB reader; `none`
is the `throw new Error('Arquivo XLS inválido…')` path. -/
def parseBiffManual (f64 : Bytes → ℚ) (workbookStream : Option Bytes) :
    Except String (List RawRow × List String) :=
  match workbookStream with
  | none => .error "Arquivo XLS inválido: stream Workbook não encontrado"
  | some data =>
    match scanRecordsAux f64 (data.length + 1) data 0 biffInit with
    | .error e => .error e
    | .ok st =>
      .ok (biffRows st, if st.sheetNames.length > 0 then st.sheetNames else ["Razão"])

/-- Outcome of the standard (`XLSX.read` + `sheet_to_json`) decoding path,
an external library abstracted as an oracle: the chosen sheet existed with a
`!ref` and converted to the given rows (possibly none), or no usable sheet was
found, or the library threw. -/
inductive StdPath where
  | ok (rows : List RawRow) (sheets : List String)
  | noSheet
  | err

/-- `readRawRows` from razao-importer.ts: return the standard path's rows when
non-empty, otherwise fall back to the binary reader.  The source calls
`parseBiffManual` inside the `try` and again in the `catch`; both calls are the
same pure computation, so the caught-and-retried failure collapses to a single
call.  The progress callback is a pure side channel and is not modelled. -/
def readRawRows (std : StdPath) (f64 : Bytes → ℚ) (workbookStream : Option Bytes) :
    Except String (List RawRow × List String) :=
  match std with
  | .ok rows sheets =>
    if rows.length > 0 then .ok (rows, sheets)
    else parseBiffManual f64 workbookStream
  | .noSheet => parseBiffManual f64 workbookStream
  | .err => parseBiffManual f64 workbookStream

/-!
## Claim-level notions and concrete inputs
-/

/-- The derived-field invariants of an `IncomeStatement` (§3 of the spec
declares these as invariants of the type; every statement the aggregators
produce satisfies them by construction). -/
def ISInvariant (m : IncomeStatement) : Prop :=
  m.netRevenue = m.grossRevenue - m.deductions ∧
  m.grossProfit = m.netRevenue - m.cogs ∧
  m.ebit = m.grossProfit - m.sgaExpenses - m.depreciation + m.otherOperating ∧
  m.ebt = m.ebit + m.financialResult ∧
  m.netIncome = m.ebt - m.incomeTax

/-- All numeric fields of an income statement are zero. -/
def ISFieldsZero (s : IncomeStatement) : Prop :=
  s.grossRevenue = 0 ∧ s.deductions = 0 ∧ s.netRevenue = 0 ∧ s.cogs = 0 ∧
  s.grossProfit = 0 ∧ s.sgaExpenses = 0 ∧ s.depreciation = 0 ∧
  s.otherOperating = 0 ∧ s.ebit = 0 ∧ s.financialResult = 0 ∧ s.ebt = 0 ∧
  s.incomeTax = 0 ∧ s.netIncome = 0

/-- All numeric fields of two balance sheets agree (the period may differ). -/
def BSFieldsEq (a b : BalanceSheet) : Prop :=
  a.operatingCash = b.operatingCash ∧ a.nonOperatingCash = b.nonOperatingCash ∧
  a.accountsReceivable = b.accountsReceivable ∧ a.inventory = b.inventory ∧
  a.otherCurrentAssets = b.otherCurrentAssets ∧ a.ppe = b.ppe ∧
  a.intangibles = b.intangibles ∧ a.otherNonCurrentAssets = b.otherNonCurrentAssets ∧
  a.totalAssets = b.totalAssets ∧ a.accountsPayable = b.accountsPayable ∧
  a.otherOperatingLiabilities = b.otherOperatingLiabilities ∧
  a.shortTermDebt = b.shortTermDebt ∧ a.longTermDebt = b.longTermDebt ∧
  a.otherNonCurrentLiabilities = b.otherNonCurrentLiabilities ∧
  a.totalLiabilities = b.totalLiabilities ∧ a.equity = b.equity

instance (m : IncomeStatement) : Decidable (ISInvariant m) := by
  unfold ISInvariant; exact inferInstance

instance (s : IncomeStatement) : Decidable (ISFieldsZero s) := by
  unfold ISFieldsZero; exact inferInstance

instance (a b : BalanceSheet) : Decidable (BSFieldsEq a b) := by
  unfold BSFieldsEq; exact inferInstance

/-- The amount one mapping contributes to its target field in
`aggregateToBalanceSheet`: the account's nature-adjusted balance times the
mapping's sign, or nothing when the mapping is not a balance-sheet mapping or
its account is absent from the ledger. -/
def bsContribution (ledger : ParsedLedger) (m : LedgerMapping) : ℚ :=
  if m.targetStatement = .balance_sheet ∧ m.targetField ≠ "" then
    match findAccount ledger m.accountCode with
    | some account => computeBalanceSheetValue account * m.sign
    | none => 0
  else 0

/-- Sum of a field over all months of all year buckets. -/
def groupsSum (groups : List (ℤ × List IncomeStatement))
    (f : IncomeStatement → ℚ) : ℚ :=
  (groups.map (fun p => sumField p.2 f)).sum

/-- Entries listed in ascending date order. -/
def datesSorted (es : List LedgerEntry) : Prop :=
  List.Pairwise (fun a b => a.date ≤ b.date) es

/-- A default entry (for total projections in witnesses). -/
def emptyEntry : LedgerEntry := ⟨"", "", 0, 0, 0, none⟩

/-- A default account (for total projections in witnesses). -/
def emptyAccount : LedgerAccount := mkNewAccount "" ""

/-- Column configuration used by the concrete grids below:
date, description, debit, credit, balance; no saldo-exercício column. -/
def exConfig : ColumnConfig := ⟨0, 1, 2, 3, 4, -1⟩

/-- C1 counterexample grid: one account whose two transaction rows appear in
descending date order, with no saldo/totals rows at all. -/
def C1exRows : List RawRow :=
  [[Cell.str "1.1", Cell.str "Caixa"],
   [Cell.str "05/02/2024", Cell.str "b", Cell.str "0", Cell.str "0", Cell.str "10"],
   [Cell.str "03/01/2024", Cell.str "a", Cell.str "0", Cell.str "0", Cell.str "5"]]

/-- C1/C7 witness grid: one account, two sorted transaction rows, no
saldo/totals rows. -/
def C1wRows : List RawRow :=
  [[Cell.str "1.1", Cell.str "Caixa"],
   [Cell.str "01/01/2024", Cell.str "a", Cell.str "5", Cell.str "0", Cell.str "5"],
   [Cell.str "02/01/2024", Cell.str "b", Cell.str "0", Cell.str "3", Cell.str "2"]]

/-- C7 counterexample grid: a transaction row whose debit cell is the
parenthesised (negative) value `(500)`. -/
def C7exRows : List RawRow :=
  [[Cell.str "1.1", Cell.str "Caixa"],
   [Cell.str "01/01/2024", Cell.str "x", Cell.str "(500)", Cell.str "10", Cell.str "100"]]

/-- C3 counterexample: an asset account with zero closing balance but non-zero
opening balance. -/
def C3exAccount : LedgerAccount :=
  { mkNewAccount "1.1.01" "Caixa" with openingBalance := 100 }

/-- C3 counterexample ledger. -/
def C3exLedger : ParsedLedger :=
  ⟨none, none, none, [C3exAccount], 0, []⟩

/-- C3 counterexample mapping list. -/
def C3exMappings : List LedgerMapping :=
  [⟨"1.1.01", "Caixa", "operatingCash", .balance_sheet, 1, true⟩]

/-- C9 counterexample: an account matching no auto-mapping rule. -/
def C9exAccount : LedgerAccount := mkNewAccount "9.9" "zzz"

/-- C3 witness: an asset account with non-zero closing balance. -/
def C3wAsset : LedgerAccount := { mkNewAccount "1.1" "Caixa" with closingBalance := 7 }

/-- C3 witness: a liability account with a (negatively stored) closing balance. -/
def C3wLiab : LedgerAccount := { mkNewAccount "2.1" "Fornecedores" with closingBalance := -9 }

/-- C2 witness: first page fragment of a duplicated account. -/
def C2wA : LedgerAccount :=
  { mkNewAccount "1.1" "Caixa" with
    entries := [⟨"2024-01-02", "a", 5, 0, 5, none⟩]
    totalDebits := 5
    closingBalance := 5 }

/-- C2 witness: second page fragment of the same account. -/
def C2wB : LedgerAccount :=
  { mkNewAccount "1.1" "Caixa Geral" with
    entries := [⟨"2024-01-01", "b", 0, 3, 2, none⟩]
    totalCredits := 3
    openingBalance := 1 }

/-- An all-zero income statement (default for total row projections). -/
def emptyIS : IncomeStatement := buildIncomeStatement ⟨0, none, "", ""⟩ (fun _ => 0)

/-- An all-zero balance sheet (default for total row projections). -/
def emptyBS : BalanceSheet := buildBalanceSheet ⟨0, none, "", ""⟩ (fun _ => 0)

/-- C4 witness: an asset account with entries in January and March 2024 only. -/
def C4wAccount : LedgerAccount :=
  { mkNewAccount "1.1.01" "Caixa" with
    entries := [⟨"2024-01-05", "d", 100, 0, 0, none⟩, ⟨"2024-03-10", "e", 50, 0, 0, none⟩]
    openingBalance := 10 }

/-- C4 witness: a revenue account with entries in January and March only. -/
def C4wRevAccount : LedgerAccount :=
  { mkNewAccount "3.1.01" "Receitas" with
    entries := [⟨"2024-01-05", "r", 0, 100, 0, none⟩, ⟨"2024-03-10", "s", 0, 50, 0, none⟩] }

/-- C4 witness ledger: January–March 2024, no entries in February. -/
def C4wLedger : ParsedLedger :=
  ⟨none, some "2024-01-01", some "2024-03-31", [C4wAccount, C4wRevAccount], 0, []⟩

/-- C4 witness mappings. -/
def C4wMappings : List LedgerMapping :=
  [⟨"1.1.01", "Caixa", "operatingCash", .balance_sheet, 1, true⟩,
   ⟨"3.1.01", "Receitas", "grossRevenue", .income_statement, 1, true⟩]

/-- C5 witness: two monthly statements of one year satisfying the
income-statement invariants. -/
def C5wJan : IncomeStatement :=
  { period := ⟨2024, some 1, "2024-01-01", "2024-01-31"⟩
    grossRevenue := 10, deductions := 2, netRevenue := 8, cogs := 3,
    grossProfit := 5, sgaExpenses := 1, depreciation := 1, otherOperating := 0,
    ebit := 3, financialResult := 1, ebt := 4, incomeTax := 1, netIncome := 3 }

/-- C5 witness: the February statement. -/
def C5wFeb : IncomeStatement :=
  { period := ⟨2024, some 2, "2024-02-01", "2024-02-29"⟩
    grossRevenue := 20, deductions := 4, netRevenue := 16, cogs := 6,
    grossProfit := 10, sgaExpenses := 2, depreciation := 2, otherOperating := 1,
    ebit := 7, financialResult := 0, ebt := 7, incomeTax := 2, netIncome := 5 }

/-- All entries of an account carry non-negative debit and credit amounts. -/
def EntriesNonneg (a : LedgerAccount) : Prop :=
  ∀ e ∈ a.entries, 0 ≤ e.debit ∧ 0 ≤ e.credit

instance (a : LedgerAccount) : Decidable (EntriesNonneg a) := by
  unfold EntriesNonneg; exact inferInstance

/-- A row is benign for the totals/closing invariant: it is not a saldo row
whose keyword sets explicit totals (`totais`/`total`) or an explicit final
balance (`final`). -/
def saldoBenign (row : RawRow) : Bool :=
  match isSaldoOrTotalLine row with
  | some s => !(jsIncludes s "totais" || jsIncludes s "total" || jsIncludes s "final")
  | none => true

/-- The C1 account invariant: the stored totals equal the sums over the
entries, and the closing balance equals the last entry's running balance. -/
def GoodAccount (a : LedgerAccount) : Prop :=
  a.totalDebits = sumDebits a.entries ∧
  a.totalCredits = sumCredits a.entries ∧
  ∀ e, a.entries.getLast? = some e → a.closingBalance = e.balance

/-- A still-raw account: totals and closing balance untouched since creation. -/
def ZeroTotals (a : LedgerAccount) : Prop :=
  a.totalDebits = 0 ∧ a.totalCredits = 0 ∧ a.closingBalance = 0

/-!
## Helper lemmas
-/

theorem foldl_add_map {α : Type} (f : α → ℚ) :
    ∀ (l : List α) (a : ℚ), l.foldl (fun s x => s + f x) a = a + (l.map f).sum := by
  intro l
  induction l with
  | nil => intro a; simp
  | cons x l ih => intro a; simp only [List.foldl_cons, List.map_cons, List.sum_cons, ih]; ring

theorem sumDebits_eq (es : List LedgerEntry) :
    sumDebits es = (es.map (fun e => e.debit)).sum := by
  simpa using foldl_add_map (fun e : LedgerEntry => e.debit) es 0

theorem sumCredits_eq (es : List LedgerEntry) :
    sumCredits es = (es.map (fun e => e.credit)).sum := by
  simpa using foldl_add_map (fun e : LedgerEntry => e.credit) es 0

theorem sumField_eq (l : List IncomeStatement) (f : IncomeStatement → ℚ) :
    sumField l f = (l.map f).sum := by
  simpa using foldl_add_map f l 0

theorem sumField_append (l₁ l₂ : List IncomeStatement) (f : IncomeStatement → ℚ) :
    sumField (l₁ ++ l₂) f = sumField l₁ f + sumField l₂ f := by
  simp [sumField_eq]

theorem sumField_congr {l : List IncomeStatement} {f g : IncomeStatement → ℚ}
    (h : ∀ m ∈ l, f m = g m) : sumField l f = sumField l g := by
  induction l with
  | nil => rfl
  | cons x l ih =>
    simp only [sumField_eq, List.map_cons, List.sum_cons] at *
    rw [h x (by simp), ih (fun m hm => h m (by simp [hm]))]

theorem sumField_sub (l : List IncomeStatement) (f g : IncomeStatement → ℚ) :
    sumField l (fun m => f m - g m) = sumField l f - sumField l g := by
  induction l with
  | nil => simp [sumField]
  | cons x l ih => simp only [sumField_eq, List.map_cons, List.sum_cons] at *; rw [ih]; ring

theorem sumField_add (l : List IncomeStatement) (f g : IncomeStatement → ℚ) :
    sumField l (fun m => f m + g m) = sumField l f + sumField l g := by
  induction l with
  | nil => simp [sumField]
  | cons x l ih => simp only [sumField_eq, List.map_cons, List.sum_cons] at *; rw [ih]; ring

/-!
## C6 — numeric cell parsing
-/

/-- C6: `parseNumericCell` is total by construction (a Lean function on all
cells) and satisfies the claimed evaluations: Brazilian `"1.234,56"` parses to
1234.56, parenthesised `"(500)"` to −500, unparseable text and null/absent
cells to 0, and a trailing debit/credit marker letter (here ` D` / ` C`) is
trimmed before parsing. -/
theorem C6_parseNumericCell :
    parseNumericCell (Cell.str "1.234,56") = 1234.56 ∧
    parseNumericCell (Cell.str "(500)") = -500 ∧
    parseNumericCell (Cell.str "abc") = 0 ∧
    parseNumericCell Cell.null = 0 ∧
    parseNumericCell (Cell.str "1.234,56 D") = 1234.56 ∧
    parseNumericCell (Cell.str "1.234,56 C") = 1234.56 := by
  decide

/-!
## C8 — account classification
-/

/-- C8 counterexample: the claim classifies by the leading dot-separated
segment, under which `12.1` (leading segment `12`) falls in "anything else →
unknown"; the code switches on the first character only and returns `asset`. -/
theorem C8_counterexample :
    ((jsSplitChar "12.1" '.').headD "") = "12" ∧
    classifyAccountByCode "12.1" = AccountType.asset := by
  decide

/-- C8 (amended): `classifyAccountByCode` is a pure function of the code
string, deterministic, and classifies by the first character of the code with
the string prefixes `2.3`/`2.4`/`2.5` carved out as equity: `1` → asset, `2` →
equity or liability, `3`/`6` → revenue, `4`/`5` → expense, anything else
(including an empty code) → unknown. -/
theorem C8_classification_amended :
    ∀ code : String,
      (classifyAccountByCode code = classifyAccountByCode code) ∧
      (code.data = [] → classifyAccountByCode code = .unknown) ∧
      (∀ c rest, code.data = c :: rest →
        (c = '1' → classifyAccountByCode code = .asset) ∧
        (c = '2' → (jsStarts code "2.3" ∨ jsStarts code "2.4" ∨ jsStarts code "2.5") →
          classifyAccountByCode code = .equity) ∧
        (c = '2' → ¬(jsStarts code "2.3" ∨ jsStarts code "2.4" ∨ jsStarts code "2.5") →
          classifyAccountByCode code = .liability) ∧
        ((c = '3' ∨ c = '6') → classifyAccountByCode code = .revenue) ∧
        ((c = '4' ∨ c = '5') → classifyAccountByCode code = .expense) ∧
        (c ≠ '1' → c ≠ '2' → c ≠ '3' → c ≠ '4' → c ≠ '5' → c ≠ '6' →
          classifyAccountByCode code = .unknown)) := by
  intro code
  refine ⟨rfl, ?_, ?_⟩
  · intro h
    simp [classifyAccountByCode, h]
  · intro c rest h
    simp only [classifyAccountByCode, h]
    refine ⟨?_, ?_, ?_, ?_, ?_, ?_⟩
    · intro hc; simp [hc]
    · intro hc hpre
      subst hc
      simp [if_neg, hpre]
    · intro hc hpre
      subst hc
      simp_all
    · rintro (hc | hc) <;> subst hc <;> simp
    · rintro (hc | hc) <;> subst hc <;> simp
    · intro h1 h2 h3 h4 h5 h6
      simp [h1, h2, h3, h4, h5, h6]

/-- C8 witness: applying the amended classification at `2.35` (which starts
with the string `2.3` though its second segment is `35`) and at `1.1`. -/
theorem C8_witness :
    classifyAccountByCode "2.35" = AccountType.equity ∧
    classifyAccountByCode "1.1" = AccountType.asset := by
  constructor
  · exact ((C8_classification_amended "2.35").2.2 '2' ".35".data (by decide)).2.1
      (by decide) (by decide)
  · exact ((C8_classification_amended "1.1").2.2 '1' ".1".data (by decide)).1 (by decide)

/-!
## C9 — auto-mapping
-/

/-- C9 counterexample: an unmatched account yields a mapping with
`targetStatement = ignore` and `autoDetected = false`, contradicting "every
produced mapping has autoDetected = true". -/
theorem C9_counterexample :
    (autoMapAccounts [C9exAccount]).map (fun m => (m.targetStatement, m.autoDetected)) =
      [(TargetStatement.ignore, false)] := by
  decide

/-- C9 (amended): `autoMapAccounts` returns exactly one mapping per input
account, in the same order (same code and name at each index); an account
matching no rule gets `targetStatement = ignore` and `autoDetected = false`;
every mapping that matched a rule has `autoDetected = true`. -/
theorem C9_autoMap_amended :
    ∀ accounts : List LedgerAccount,
      (autoMapAccounts accounts).length = accounts.length ∧
      (∀ (i : ℕ) (a : LedgerAccount), accounts[i]? = some a →
        ∃ m, (autoMapAccounts accounts)[i]? = some m ∧
          m.accountCode = a.code ∧ m.accountName = a.name ∧
          (m.targetField = "" → m.targetStatement = .ignore ∧ m.autoDetected = false) ∧
          (m.targetField ≠ "" → m.autoDetected = true)) := by
  intro accounts
  constructor
  · simp [autoMapAccounts]
  · intro i a ha
    refine ⟨autoMapOne a, ?_, rfl, rfl, ?_, ?_⟩
    · simp [autoMapAccounts, List.getElem?_map, ha]
    · intro h
      constructor
      · simp only [autoMapOne] at h ⊢
        simp [h]
      · simp only [autoMapOne] at h ⊢
        simp [h]
    · intro h
      simp only [autoMapOne] at h ⊢
      simp [h]

/-- C9 witness: the amended mapping facts at a concrete revenue account. -/
theorem C9_witness :
    ∃ m, (autoMapAccounts [mkNewAccount "3.1.01" "Receita de Vendas"])[0]? = some m ∧
      m.accountCode = (mkNewAccount "3.1.01" "Receita de Vendas").code ∧
      m.accountName = (mkNewAccount "3.1.01" "Receita de Vendas").name ∧
      (m.targetField = "" → m.targetStatement = .ignore ∧ m.autoDetected = false) ∧
      (m.targetField ≠ "" → m.autoDetected = true) :=
  (C9_autoMap_amended [mkNewAccount "3.1.01" "Receita de Vendas"]).2 0
    (mkNewAccount "3.1.01" "Receita de Vendas") (by decide)

/-!
## Entry sort lemmas
-/

theorem listLt_irrefl : ∀ l : List Char, listLtChars l l = false := by
  intro l
  induction l with
  | nil => rfl
  | cons c rest ih => simp [listLtChars, ih]

theorem listLt_trans :
    ∀ a b c : List Char, listLtChars a b = true → listLtChars b c = true →
      listLtChars a c = true := by
  intro a
  induction a with
  | nil =>
    intro b c hab hbc
    cases b with
    | nil => cases hab
    | cons y ys =>
      cases c with
      | nil => cases hbc
      | cons z zs => rfl
  | cons x xs ih =>
    intro b c hab hbc
    cases b with
    | nil => cases hab
    | cons y ys =>
      cases c with
      | nil => cases hbc
      | cons z zs =>
        simp only [listLtChars] at hab hbc ⊢
        by_cases hxy : x = y
        · subst hxy
          rw [if_pos rfl] at hab
          by_cases hxz : x = z
          · subst hxz
            rw [if_pos rfl] at hbc
            rw [if_pos rfl]
            exact ih ys zs hab hbc
          · rw [if_neg hxz] at hbc
            rw [if_neg hxz]
            exact hbc
        · rw [if_neg hxy] at hab
          have hlt : x < y := of_decide_eq_true hab
          by_cases hyz : y = z
          · have hxz : x ≠ z := fun h => hxy (h.trans hyz.symm)
            rw [if_neg hxz]
            exact decide_eq_true (hyz ▸ hlt)
          · rw [if_neg hyz] at hbc
            have hlt2 : y < z := of_decide_eq_true hbc
            have hxz : x < z := lt_trans hlt hlt2
            rw [if_neg (ne_of_lt hxz)]
            exact decide_eq_true hxz

theorem listLt_connex :
    ∀ a b : List Char, listLtChars a b = false → listLtChars b a = false → a = b := by
  intro a
  induction a with
  | nil =>
    intro b hab _
    cases b with
    | nil => rfl
    | cons y ys => cases hab
  | cons x xs ih =>
    intro b hab hba
    cases b with
    | nil => cases hba
    | cons y ys =>
      simp only [listLtChars] at hab hba
      by_cases hxy : x = y
      · subst hxy
        rw [if_pos rfl] at hab hba
        rw [ih ys hab hba]
      · rw [if_neg hxy] at hab
        rw [if_neg (fun h => hxy h.symm)] at hba
        have h1 : ¬ x < y := of_decide_eq_false hab
        have h2 : ¬ y < x := of_decide_eq_false hba
        exact absurd (le_antisymm (le_of_not_lt h2) (le_of_not_lt h1)) hxy

theorem listLt_asymm {a b : List Char} (h : listLtChars a b = true) :
    listLtChars b a = false := by
  by_contra hba
  have hba2 : listLtChars b a = true := by
    cases hx : listLtChars b a
    · exact absurd hx hba
    · rfl
  have := listLt_trans a b a h hba2
  rw [listLt_irrefl] at this
  cases this

theorem jsStrLe_refl (a : String) : jsStrLe a a = true := by
  simp [jsStrLe, jsStrLt, listLt_irrefl]

theorem jsStrLe_of_not_le {x y : String} (h : jsStrLe x y = false) :
    jsStrLe y x = true := by
  simp only [jsStrLe, jsStrLt, Bool.not_eq_false'] at h
  simp only [jsStrLe, jsStrLt, Bool.not_eq_true']
  exact listLt_asymm h

theorem jsStrLe_trans {a b c : String} (hab : jsStrLe a b = true)
    (hbc : jsStrLe b c = true) : jsStrLe a c = true := by
  simp only [jsStrLe, jsStrLt, Bool.not_eq_true'] at hab hbc ⊢
  by_contra hca
  have hca2 : listLtChars c.data a.data = true := by
    cases hx : listLtChars c.data a.data
    · exact absurd hx hca
    · rfl
  by_cases hab2 : listLtChars a.data b.data = true
  · have := listLt_trans c.data a.data b.data hca2 hab2
    rw [hbc] at this
    cases this
  · have heq : a.data = b.data :=
      listLt_connex a.data b.data (by cases hx : listLtChars a.data b.data; rfl; exact absurd hx hab2) hab
    rw [heq] at hca2
    rw [hca2] at hbc
    cases hbc

theorem insertEntry_perm (e : LedgerEntry) (l : List LedgerEntry) :
    List.Perm (insertEntryByDate e l) (e :: l) := by
  induction l with
  | nil => rfl
  | cons f rest ih =>
    simp only [insertEntryByDate]
    by_cases h : jsStrLe f.date e.date
    · simpa [h] using (ih.cons f).trans (List.Perm.swap e f rest)
    · simp [h]

theorem sortEntries_foldl_perm :
    ∀ (l acc : List LedgerEntry),
      List.Perm (l.foldl (fun acc e => insertEntryByDate e acc) acc) (acc ++ l) := by
  intro l
  induction l with
  | nil => intro acc; simp
  | cons x l ih =>
    intro acc
    refine ((ih (insertEntryByDate x acc)).trans ?_)
    exact ((insertEntry_perm x acc).append_right l).trans List.perm_middle.symm

theorem sortEntries_perm (l : List LedgerEntry) :
    List.Perm (sortEntriesByDate l) l := by
  simpa [sortEntriesByDate] using sortEntries_foldl_perm l []

theorem sortEntries_length (l : List LedgerEntry) :
    (sortEntriesByDate l).length = l.length :=
  (sortEntries_perm l).length_eq

theorem sortEntries_mem (e : LedgerEntry) (l : List LedgerEntry) :
    e ∈ sortEntriesByDate l ↔ e ∈ l :=
  (sortEntries_perm l).mem_iff

theorem insertEntry_sorted (e : LedgerEntry) (l : List LedgerEntry)
    (h : List.Pairwise (fun a b : LedgerEntry => jsStrLe a.date b.date = true) l) :
    List.Pairwise (fun a b : LedgerEntry => jsStrLe a.date b.date = true) (insertEntryByDate e l) := by
  induction l with
  | nil => simp [insertEntryByDate]
  | cons f rest ih =>
    rw [List.pairwise_cons] at h
    simp only [insertEntryByDate]
    by_cases hle : jsStrLe f.date e.date
    · rw [if_pos hle, List.pairwise_cons]
      refine ⟨?_, ih h.2⟩
      intro x hx
      rcases List.mem_cons.mp ((insertEntry_perm e rest).mem_iff.mp hx) with hx | hx
      · rw [hx]; exact hle
      · exact h.1 x hx
    · rw [if_neg hle, List.pairwise_cons]
      refine ⟨?_, List.pairwise_cons.mpr h⟩
      intro x hx
      have hef : jsStrLe e.date f.date = true :=
        jsStrLe_of_not_le (Bool.not_eq_true _ ▸ Bool.of_not_eq_true hle)
      rcases List.mem_cons.mp hx with hx | hx
      · rw [hx]; exact hef
      · exact jsStrLe_trans hef (h.1 x hx)

theorem sortEntries_foldl_sorted :
    ∀ (l acc : List LedgerEntry),
      List.Pairwise (fun a b : LedgerEntry => jsStrLe a.date b.date = true) acc →
      List.Pairwise (fun a b : LedgerEntry => jsStrLe a.date b.date = true)
        (l.foldl (fun acc e => insertEntryByDate e acc) acc) := by
  intro l
  induction l with
  | nil => intro acc h; simpa using h
  | cons x l ih =>
    intro acc h
    exact ih (insertEntryByDate x acc) (insertEntry_sorted x acc h)

theorem sortEntries_sorted (l : List LedgerEntry) :
    List.Pairwise (fun a b : LedgerEntry => jsStrLe a.date b.date = true) (sortEntriesByDate l) :=
  sortEntries_foldl_sorted l [] (by simp)

theorem insertEntry_all_le (e : LedgerEntry) (l : List LedgerEntry)
    (h : ∀ f ∈ l, jsStrLe f.date e.date = true) : insertEntryByDate e l = l ++ [e] := by
  induction l with
  | nil => rfl
  | cons f rest ih =>
    simp only [insertEntryByDate, if_pos (h f (by simp)), List.cons_append,
      List.cons.injEq, true_and]
    exact ih (fun g hg => h g (by simp [hg]))

theorem sortEntries_foldl_of_sorted :
    ∀ (l acc : List LedgerEntry),
      List.Pairwise (fun a b : LedgerEntry => jsStrLe a.date b.date = true) l →
      (∀ f ∈ acc, ∀ e ∈ l, jsStrLe f.date e.date = true) →
      l.foldl (fun acc e => insertEntryByDate e acc) acc = acc ++ l := by
  intro l
  induction l with
  | nil => intro acc _ _; simp
  | cons x l ih =>
    intro acc hl hacc
    rw [List.pairwise_cons] at hl
    have h1 : insertEntryByDate x acc = acc ++ [x] :=
      insertEntry_all_le x acc (fun f hf => hacc f hf x (by simp))
    have h2 : (x :: l).foldl (fun acc e => insertEntryByDate e acc) acc
        = l.foldl (fun acc e => insertEntryByDate e acc) (acc ++ [x]) := by
      simp [List.foldl_cons, h1]
    rw [h2, ih (acc ++ [x]) hl.2 ?_]
    · simp
    · intro f hf e he
      rcases List.mem_append.mp hf with hf | hf
      · exact hacc f hf e (by simp [he])
      · simp only [List.mem_singleton] at hf
        rw [hf]
        exact hl.1 e he

theorem sortEntries_of_sorted (l : List LedgerEntry)
    (h : List.Pairwise (fun a b : LedgerEntry => jsStrLe a.date b.date = true) l) :
    sortEntriesByDate l = l := by
  simpa [sortEntriesByDate] using sortEntries_foldl_of_sorted l [] h (by simp)

/-!
## Deduplication lemmas
-/

theorem dedupInsert_code_mem (map : List LedgerAccount) (acc : LedgerAccount) :
    ∀ x ∈ (dedupInsert map acc).map (fun a => a.code),
      x ∈ map.map (fun a => a.code) ∨ x = acc.code := by
  induction map with
  | nil => intro x hx; simp only [dedupInsert, List.map_cons, List.map_nil] at hx; simp at hx; exact Or.inr hx
  | cons e rest ih =>
    intro x hx
    simp only [dedupInsert] at hx
    by_cases he : e.code = acc.code
    · rw [if_pos he] at hx
      simp only [List.map_cons, List.mem_cons] at hx
      rcases hx with hx | hx
      · exact Or.inl (by simp [hx, mergeAccounts])
      · exact Or.inl (by simp [hx])
    · rw [if_neg he] at hx
      simp only [List.map_cons, List.mem_cons] at hx
      rcases hx with hx | hx
      · exact Or.inl (by simp [hx])
      · rcases ih x hx with h | h
        · exact Or.inl (by simp [h])
        · exact Or.inr h

theorem dedupInsert_nodup (map : List LedgerAccount) (acc : LedgerAccount)
    (h : (map.map (fun a => a.code)).Nodup) :
    ((dedupInsert map acc).map (fun a => a.code)).Nodup := by
  induction map with
  | nil => simp [dedupInsert]
  | cons e rest ih =>
    simp only [List.map_cons, List.nodup_cons] at h
    simp only [dedupInsert]
    by_cases he : e.code = acc.code
    · rw [if_pos he]
      simp only [List.map_cons, List.nodup_cons]
      exact ⟨by simpa [mergeAccounts] using h.1, h.2⟩
    · rw [if_neg he]
      simp only [List.map_cons, List.nodup_cons]
      refine ⟨?_, ih h.2⟩
      intro hmem
      rcases dedupInsert_code_mem rest acc e.code hmem with hc | hc
      · exact h.1 hc
      · exact he hc

theorem dedupFold_nodup :
    ∀ (l acc : List LedgerAccount), (acc.map (fun a => a.code)).Nodup →
      ((l.foldl dedupInsert acc).map (fun a => a.code)).Nodup := by
  intro l
  induction l with
  | nil => intro acc h; simpa using h
  | cons x l ih => intro acc h; exact ih (dedupInsert acc x) (dedupInsert_nodup acc x h)

theorem deduplicateAccounts_codes_nodup (accounts : List LedgerAccount) :
    ((deduplicateAccounts accounts).map (fun a => a.code)).Nodup := by
  have h := dedupFold_nodup accounts [] (by simp)
  simpa [deduplicateAccounts, List.map_map, Function.comp] using h

/-!
## C2 — duplicate-account merging
-/

/-- C2: merging two accounts sharing a code preserves the total entry count
(entries concatenated then stably re-sorted ascending by date), sums the
debit/credit totals, takes the later-encountered non-zero closing balance and
the earliest non-zero opening balance, keeps the longer name, and the result
of `deduplicateAccounts` always has pairwise-distinct codes. -/
theorem C2_deduplicate_merge :
    (∀ a b : LedgerAccount, a.code = b.code →
      ∃ m, deduplicateAccounts [a, b] = [m] ∧
        m.entries.length = a.entries.length + b.entries.length ∧
        m.entries = sortEntriesByDate (a.entries ++ b.entries) ∧
        List.Pairwise (fun x y : LedgerEntry => jsStrLe x.date y.date = true) m.entries ∧
        m.totalDebits = a.totalDebits + b.totalDebits ∧
        m.totalCredits = a.totalCredits + b.totalCredits ∧
        (b.closingBalance ≠ 0 → m.closingBalance = b.closingBalance) ∧
        (b.closingBalance = 0 → m.closingBalance = a.closingBalance) ∧
        (a.openingBalance ≠ 0 → m.openingBalance = a.openingBalance) ∧
        (a.openingBalance = 0 → m.openingBalance = b.openingBalance) ∧
        m.name = (if b.name.length > a.name.length then b.name else a.name) ∧
        m.code = a.code) ∧
    (∀ accounts : List LedgerAccount,
      ((deduplicateAccounts accounts).map (fun a => a.code)).Nodup) := by
  constructor
  · intro a b hcode
    have hfold : [a, b].foldl dedupInsert [] = [mergeAccounts a b] := by
      simp [dedupInsert, hcode]
    refine ⟨{ mergeAccounts a b with
              entries := sortEntriesByDate (a.entries ++ b.entries) }, ?_, ?_, rfl, ?_,
            ?_, ?_, ?_, ?_, ?_, ?_, rfl, rfl⟩
    · simp [deduplicateAccounts, hfold, mergeAccounts]
    · simp [sortEntries_length]
    · exact sortEntries_sorted _
    · rfl
    · rfl
    · intro h; simp [mergeAccounts, if_pos h]
    · intro h; simp [mergeAccounts, h]
    · intro h; simp only [mergeAccounts]; rw [if_neg (by simp [h])]
    · intro h
      by_cases hb : b.openingBalance = 0
      · simp [mergeAccounts, h, hb]
      · simp [mergeAccounts, h, hb]
  · exact deduplicateAccounts_codes_nodup

/-- C2 witness: the merge facts at two concrete page fragments of account
`1.1`. -/
theorem C2_witness :
    ∃ m, deduplicateAccounts [C2wA, C2wB] = [m] ∧
      m.entries.length = C2wA.entries.length + C2wB.entries.length ∧
      m.entries = sortEntriesByDate (C2wA.entries ++ C2wB.entries) ∧
      List.Pairwise (fun x y : LedgerEntry => jsStrLe x.date y.date = true) m.entries ∧
      m.totalDebits = C2wA.totalDebits + C2wB.totalDebits ∧
      m.totalCredits = C2wA.totalCredits + C2wB.totalCredits ∧
      (C2wB.closingBalance ≠ 0 → m.closingBalance = C2wB.closingBalance) ∧
      (C2wB.closingBalance = 0 → m.closingBalance = C2wA.closingBalance) ∧
      (C2wA.openingBalance ≠ 0 → m.openingBalance = C2wA.openingBalance) ∧
      (C2wA.openingBalance = 0 → m.openingBalance = C2wB.openingBalance) ∧
      m.name = (if C2wB.name.length > C2wA.name.length then C2wB.name else C2wA.name) ∧
      m.code = C2wA.code :=
  C2_deduplicate_merge.1 C2wA C2wB (by decide)

/-!
## C3 — balance-sheet aggregation
-/

/-- C3 counterexample: a mapped asset account with zero closing balance and
opening balance 100 contributes 100 (the opening-plus-movement fallback), not
its closing balance 0 — so the claim "contributes that account's closing
balance" fails as stated. -/
theorem C3_counterexample :
    C3exAccount.accountType = AccountType.asset ∧
    C3exAccount.closingBalance = 0 ∧
    (aggregateToBalanceSheet C3exLedger C3exMappings).operatingCash = 100 ∧
    (100 : ℚ) ≠ C3exAccount.closingBalance * 1 := by
  refine ⟨by decide, by decide, ?_, by decide⟩
  decide

theorem bsValuesStep_apply (ledger : ParsedLedger) (g : String → ℚ)
    (m : LedgerMapping) (f : String) :
    bsValuesStep ledger g m f =
      g f + (if m.targetField = f then bsContribution ledger m else 0) := by
  by_cases hskip : m.targetStatement ≠ .balance_sheet ∨ m.targetField = ""
  · have hc : ¬(m.targetStatement = .balance_sheet ∧ m.targetField ≠ "") := by tauto
    simp [bsValuesStep, hskip, bsContribution, hc, ite_self]
  · have hc : m.targetStatement = .balance_sheet ∧ m.targetField ≠ "" := by tauto
    rw [bsValuesStep, if_neg hskip]
    cases hfind : findAccount ledger m.accountCode with
    | none => simp [bsContribution, hc, hfind, ite_self]
    | some account =>
      simp only [bsContribution, if_pos hc, hfind, updValues]
      by_cases hf : m.targetField = f
      · simp [hf]
      · have hf2 : ¬ f = m.targetField := fun h => hf h.symm
        simp [hf, hf2]

theorem bsValues_foldl_sum (ledger : ParsedLedger) :
    ∀ (ms : List LedgerMapping) (g : String → ℚ) (f : String),
      (ms.foldl (bsValuesStep ledger) g) f =
        g f + (ms.map (fun m => if m.targetField = f then bsContribution ledger m else 0)).sum := by
  intro ms
  induction ms with
  | nil => intro g f; simp
  | cons m ms ih =>
    intro g f
    simp only [List.foldl_cons, List.map_cons, List.sum_cons]
    rw [ih (bsValuesStep ledger g m) f, bsValuesStep_apply]
    ring

/-- C3 (amended): for every mapped account, `aggregateToBalanceSheet`
accumulates into the target field (multiplied by the mapping's sign) the
account's nature-adjusted closing balance whenever that closing balance is
non-zero — as-is for assets, as an absolute magnitude for liabilities and
equity — and otherwise falls back to `opening + debits − credits` for assets
and `opening + credits − debits` for liabilities/equity. -/
theorem C3_balance_contribution_amended :
    (∀ account : LedgerAccount,
      (account.accountType = .asset → account.closingBalance ≠ 0 →
        computeBalanceSheetValue account = account.closingBalance) ∧
      ((account.accountType = .liability ∨ account.accountType = .equity) →
        account.closingBalance ≠ 0 →
        computeBalanceSheetValue account = |account.closingBalance|) ∧
      (account.accountType = .asset → account.closingBalance = 0 →
        computeBalanceSheetValue account =
          account.openingBalance + account.totalDebits - account.totalCredits) ∧
      ((account.accountType = .liability ∨ account.accountType = .equity) →
        account.closingBalance = 0 →
        computeBalanceSheetValue account =
          account.openingBalance + account.totalCredits - account.totalDebits)) ∧
    (∀ (ledger : ParsedLedger) (mappings : List LedgerMapping) (f : String),
      bsValues ledger mappings f =
        (mappings.map (fun m =>
          if m.targetField = f then bsContribution ledger m else 0)).sum) ∧
    (∀ (ledger : ParsedLedger) (mappings : List LedgerMapping),
      (aggregateToBalanceSheet ledger mappings).operatingCash =
        bsValues ledger mappings "operatingCash" ∧
      (aggregateToBalanceSheet ledger mappings).equity =
        bsValues ledger mappings "equity") := by
  refine ⟨?_, ?_, ?_⟩
  · intro account
    refine ⟨?_, ?_, ?_, ?_⟩
    · intro ht hc; simp [computeBalanceSheetValue, ht, hc]
    · rintro (ht | ht) hc <;> simp [computeBalanceSheetValue, ht, hc]
    · intro ht hc; simp [computeBalanceSheetValue, ht, hc]
    · rintro (ht | ht) hc <;> simp [computeBalanceSheetValue, ht, hc]
  · intro ledger mappings f
    simpa using bsValues_foldl_sum ledger mappings (fun _ => 0) f
  · intro ledger mappings
    exact ⟨rfl, rfl⟩

/-- C3 witness: the non-zero-closing cases at a concrete asset and a concrete
liability account. -/
theorem C3_witness :
    computeBalanceSheetValue C3wAsset = C3wAsset.closingBalance ∧
    computeBalanceSheetValue C3wLiab = |C3wLiab.closingBalance| :=
  ⟨(C3_balance_contribution_amended.1 C3wAsset).1 (by decide) (by decide),
   (C3_balance_contribution_amended.1 C3wLiab).2.1 (Or.inl (by decide)) (by decide)⟩

/-!
## C10 — dual-path decoding
-/

/-- C10: if the standard path yields no rows (no usable sheet, an exception,
or an empty conversion) and the binary fallback decodes the stream to zero
rows, `readRawRows` returns the empty row list rather than raising; and it
raises only when the standard path yielded no rows AND the binary path itself
raised (Workbook stream missing or a truncated NUMBER record) — i.e. only for
a byte stream unreadable by both paths. -/
theorem C10_dual_path :
    (∀ (std : StdPath) (f64 : Bytes → ℚ) (wb : Option Bytes) (shs : List String),
      (∀ rs sheets, std = .ok rs sheets → rs = []) →
      parseBiffManual f64 wb = .ok ([], shs) →
      readRawRows std f64 wb = .ok ([], shs)) ∧
    (∀ (std : StdPath) (f64 : Bytes → ℚ) (wb : Option Bytes) (e : String),
      readRawRows std f64 wb = .error e →
      (∀ rs sheets, std = .ok rs sheets → rs = []) ∧
      parseBiffManual f64 wb = .error e) := by
  constructor
  · intro std f64 wb shs hstd hbiff
    cases std with
    | ok rs sheets =>
      have : rs = [] := hstd rs sheets rfl
      subst this
      simpa [readRawRows] using hbiff
    | noSheet => simpa [readRawRows] using hbiff
    | err => simpa [readRawRows] using hbiff
  · intro std f64 wb e herr
    cases std with
    | ok rs sheets =>
      by_cases hlen : rs.length > 0
      · rw [readRawRows, if_pos hlen] at herr
        cases herr
      · have hrs : rs = [] := List.length_eq_zero.mp (by omega)
        rw [readRawRows, if_neg hlen] at herr
        exact ⟨fun rs' sheets' h => (by cases h; exact hrs), herr⟩
    | noSheet => exact ⟨fun rs' sheets' h => (nomatch h), herr⟩
    | err => exact ⟨fun rs' sheets' h => (nomatch h), herr⟩

/-- C10 witness: an empty-but-readable stream (the standard path found no
sheet, the Workbook stream is present and scans to zero rows) returns the
empty row list with the fallback sheet name. -/
theorem C10_witness :
    readRawRows StdPath.noSheet (fun _ => 0) (some []) = .ok ([], ["Razão"]) :=
  C10_dual_path.1 StdPath.noSheet (fun _ => 0) (some []) ["Razão"]
    (fun rs sheets h => by cases h) rfl

/-!
## C5 — monthly-to-annual rollup
-/

theorem sumField_cons (x : IncomeStatement) (l : List IncomeStatement)
    (f : IncomeStatement → ℚ) : sumField (x :: l) f = f x + sumField l f := by
  simp [sumField_eq]

theorem groupsSum_addToYear (m : IncomeStatement)
    (groups : List (ℤ × List IncomeStatement)) (f : IncomeStatement → ℚ) :
    groupsSum (addToYear m groups) f = groupsSum groups f + f m := by
  induction groups with
  | nil => simp [groupsSum, addToYear, sumField_eq]
  | cons p rest ih =>
    obtain ⟨y, g⟩ := p
    simp only [addToYear]
    by_cases h : y = m.period.year
    · rw [if_pos h]
      simp only [groupsSum, List.map_cons, List.sum_cons] at *
      rw [sumField_append]
      simp [sumField_eq]
      ring
    · rw [if_neg h]
      simp only [groupsSum, List.map_cons, List.sum_cons] at *
      rw [ih]
      ring

theorem groupsSum_fold (f : IncomeStatement → ℚ) :
    ∀ (l : List IncomeStatement) (acc : List (ℤ × List IncomeStatement)),
      groupsSum (l.foldl (fun acc m => addToYear m acc) acc) f =
        groupsSum acc f + sumField l f := by
  intro l
  induction l with
  | nil => intro acc; simp [sumField]
  | cons x l ih =>
    intro acc
    simp only [List.foldl_cons]
    rw [ih (addToYear x acc), groupsSum_addToYear, sumField_cons]
    ring

theorem groupsSum_insertYearGroup (p : ℤ × List IncomeStatement)
    (l : List (ℤ × List IncomeStatement)) (f : IncomeStatement → ℚ) :
    groupsSum (insertYearGroup p l) f = sumField p.2 f + groupsSum l f := by
  induction l with
  | nil => simp [groupsSum, insertYearGroup]
  | cons q rest ih =>
    simp only [insertYearGroup]
    by_cases h : q.1 ≤ p.1
    · rw [if_pos h]
      simp only [groupsSum, List.map_cons, List.sum_cons] at *
      rw [ih]
      ring
    · rw [if_neg h]
      simp [groupsSum, List.map_cons, List.sum_cons]

theorem groupsSum_sort (l : List (ℤ × List IncomeStatement)) (f : IncomeStatement → ℚ) :
    groupsSum (sortYearGroups l) f = groupsSum l f := by
  suffices h : ∀ (l acc : List (ℤ × List IncomeStatement)),
      groupsSum (l.foldl (fun acc p => insertYearGroup p acc) acc) f =
        groupsSum acc f + groupsSum l f by
    simpa [sortYearGroups, groupsSum] using h l []
  intro l
  induction l with
  | nil => intro acc; simp [groupsSum]
  | cons p rest ih =>
    intro acc
    simp only [List.foldl_cons]
    rw [ih (insertYearGroup p acc), groupsSum_insertYearGroup]
    simp only [groupsSum, List.map_cons, List.sum_cons]
    ring

theorem annual_base_sum (monthly : List IncomeStatement) (F : IncomeStatement → ℚ)
    (hF : ∀ p : ℤ × List IncomeStatement, F (annualOfGroup p) = sumField p.2 F) :
    sumField (aggregateMonthlyToAnnual monthly) F = sumField monthly F := by
  rw [aggregateMonthlyToAnnual, sumField_eq, List.map_map]
  have h1 : ((sortYearGroups (groupByYear monthly)).map (F ∘ annualOfGroup)) =
      ((sortYearGroups (groupByYear monthly)).map (fun p => sumField p.2 F)) :=
    List.map_congr_left (fun p _ => hF p)
  rw [h1]
  have h2 : (((sortYearGroups (groupByYear monthly)).map (fun p => sumField p.2 F)).sum) =
      groupsSum (sortYearGroups (groupByYear monthly)) F := rfl
  rw [h2, groupsSum_sort]
  have h3 := groupsSum_fold F monthly []
  simpa [groupByYear, groupsSum] using h3

theorem annual_member_inv (monthly : List IncomeStatement) :
    ∀ s ∈ aggregateMonthlyToAnnual monthly, ISInvariant s := by
  intro s hs
  rcases List.mem_map.mp hs with ⟨p, _, hp⟩
  rw [← hp]
  exact ⟨rfl, rfl, rfl, rfl, rfl⟩

/-- C5: column sums are preserved by the monthly-to-annual rollup — for every
field of the income statement, summing the field over
`aggregateMonthlyToAnnual monthly` equals summing it directly over `monthly`
(the monthly statements are assumed to satisfy the income-statement invariants
of the data model, which every aggregator-produced statement does; the
identity needs no "full years" restriction). -/
theorem C5_monthly_annual_sums (monthly : List IncomeStatement)
    (hinv : ∀ m ∈ monthly, ISInvariant m) :
    sumField (aggregateMonthlyToAnnual monthly) (fun m => m.grossRevenue) =
      sumField monthly (fun m => m.grossRevenue) ∧
    sumField (aggregateMonthlyToAnnual monthly) (fun m => m.deductions) =
      sumField monthly (fun m => m.deductions) ∧
    sumField (aggregateMonthlyToAnnual monthly) (fun m => m.netRevenue) =
      sumField monthly (fun m => m.netRevenue) ∧
    sumField (aggregateMonthlyToAnnual monthly) (fun m => m.cogs) =
      sumField monthly (fun m => m.cogs) ∧
    sumField (aggregateMonthlyToAnnual monthly) (fun m => m.grossProfit) =
      sumField monthly (fun m => m.grossProfit) ∧
    sumField (aggregateMonthlyToAnnual monthly) (fun m => m.sgaExpenses) =
      sumField monthly (fun m => m.sgaExpenses) ∧
    sumField (aggregateMonthlyToAnnual monthly) (fun m => m.depreciation) =
      sumField monthly (fun m => m.depreciation) ∧
    sumField (aggregateMonthlyToAnnual monthly) (fun m => m.otherOperating) =
      sumField monthly (fun m => m.otherOperating) ∧
    sumField (aggregateMonthlyToAnnual monthly) (fun m => m.ebit) =
      sumField monthly (fun m => m.ebit) ∧
    sumField (aggregateMonthlyToAnnual monthly) (fun m => m.financialResult) =
      sumField monthly (fun m => m.financialResult) ∧
    sumField (aggregateMonthlyToAnnual monthly) (fun m => m.ebt) =
      sumField monthly (fun m => m.ebt) ∧
    sumField (aggregateMonthlyToAnnual monthly) (fun m => m.incomeTax) =
      sumField monthly (fun m => m.incomeTax) ∧
    sumField (aggregateMonthlyToAnnual monthly) (fun m => m.netIncome) =
      sumField monthly (fun m => m.netIncome) := by
  set ann := aggregateMonthlyToAnnual monthly with hann
  have hgross : sumField ann (fun m => m.grossRevenue) = sumField monthly (fun m => m.grossRevenue) :=
    annual_base_sum monthly _ (fun p => rfl)
  have hded : sumField ann (fun m => m.deductions) = sumField monthly (fun m => m.deductions) :=
    annual_base_sum monthly _ (fun p => rfl)
  have hcogs : sumField ann (fun m => m.cogs) = sumField monthly (fun m => m.cogs) :=
    annual_base_sum monthly _ (fun p => rfl)
  have hsga : sumField ann (fun m => m.sgaExpenses) = sumField monthly (fun m => m.sgaExpenses) :=
    annual_base_sum monthly _ (fun p => rfl)
  have hdep : sumField ann (fun m => m.depreciation) = sumField monthly (fun m => m.depreciation) :=
    annual_base_sum monthly _ (fun p => rfl)
  have hoth : sumField ann (fun m => m.otherOperating) = sumField monthly (fun m => m.otherOperating) :=
    annual_base_sum monthly _ (fun p => rfl)
  have hfin : sumField ann (fun m => m.financialResult) = sumField monthly (fun m => m.financialResult) :=
    annual_base_sum monthly _ (fun p => rfl)
  have htax : sumField ann (fun m => m.incomeTax) = sumField monthly (fun m => m.incomeTax) :=
    annual_base_sum monthly _ (fun p => rfl)
  have hainv := annual_member_inv monthly
  rw [← hann] at hainv
  have hnet : sumField ann (fun m => m.netRevenue) = sumField monthly (fun m => m.netRevenue) := by
    have ha : sumField ann (fun m => m.netRevenue) =
        sumField ann (fun m => m.grossRevenue - m.deductions) :=
      sumField_congr (fun m hm => (hainv m hm).1)
    have hb : sumField monthly (fun m => m.netRevenue) =
        sumField monthly (fun m => m.grossRevenue - m.deductions) :=
      sumField_congr (fun m hm => (hinv m hm).1)
    rw [ha, hb, sumField_sub, sumField_sub, hgross, hded]
  have hgp : sumField ann (fun m => m.grossProfit) = sumField monthly (fun m => m.grossProfit) := by
    have ha : sumField ann (fun m => m.grossProfit) =
        sumField ann (fun m => m.netRevenue - m.cogs) :=
      sumField_congr (fun m hm => (hainv m hm).2.1)
    have hb : sumField monthly (fun m => m.grossProfit) =
        sumField monthly (fun m => m.netRevenue - m.cogs) :=
      sumField_congr (fun m hm => (hinv m hm).2.1)
    rw [ha, hb, sumField_sub, sumField_sub, hnet, hcogs]
  have hebit : sumField ann (fun m => m.ebit) = sumField monthly (fun m => m.ebit) := by
    have ha : sumField ann (fun m => m.ebit) =
        sumField ann (fun m => m.grossProfit - m.sgaExpenses - m.depreciation + m.otherOperating) :=
      sumField_congr (fun m hm => (hainv m hm).2.2.1)
    have hb : sumField monthly (fun m => m.ebit) =
        sumField monthly (fun m => m.grossProfit - m.sgaExpenses - m.depreciation + m.otherOperating) :=
      sumField_congr (fun m hm => (hinv m hm).2.2.1)
    rw [ha, hb]
    rw [show (fun m : IncomeStatement => m.grossProfit - m.sgaExpenses - m.depreciation + m.otherOperating)
        = (fun m : IncomeStatement => ((m.grossProfit - m.sgaExpenses) - m.depreciation) + m.otherOperating) from rfl]
    rw [sumField_add, sumField_sub, sumField_sub, sumField_add, sumField_sub, sumField_sub,
      hgp, hsga, hdep, hoth]
  have hebt : sumField ann (fun m => m.ebt) = sumField monthly (fun m => m.ebt) := by
    have ha : sumField ann (fun m => m.ebt) =
        sumField ann (fun m => m.ebit + m.financialResult) :=
      sumField_congr (fun m hm => (hainv m hm).2.2.2.1)
    have hb : sumField monthly (fun m => m.ebt) =
        sumField monthly (fun m => m.ebit + m.financialResult) :=
      sumField_congr (fun m hm => (hinv m hm).2.2.2.1)
    rw [ha, hb, sumField_add, sumField_add, hebit, hfin]
  have hni : sumField ann (fun m => m.netIncome) = sumField monthly (fun m => m.netIncome) := by
    have ha : sumField ann (fun m => m.netIncome) =
        sumField ann (fun m => m.ebt - m.incomeTax) :=
      sumField_congr (fun m hm => (hainv m hm).2.2.2.2)
    have hb : sumField monthly (fun m => m.netIncome) =
        sumField monthly (fun m => m.ebt - m.incomeTax) :=
      sumField_congr (fun m hm => (hinv m hm).2.2.2.2)
    rw [ha, hb, sumField_sub, sumField_sub, hebt, htax]
  exact ⟨hgross, hded, hnet, hcogs, hgp, hsga, hdep, hoth, hebit, hfin, hebt, htax, hni⟩

/-- C5 witness: the per-field sum preservation at a concrete two-month list. -/
theorem C5_witness :
    sumField (aggregateMonthlyToAnnual [C5wJan, C5wFeb]) (fun m => m.grossRevenue) =
      sumField [C5wJan, C5wFeb] (fun m => m.grossRevenue) ∧
    sumField (aggregateMonthlyToAnnual [C5wJan, C5wFeb]) (fun m => m.deductions) =
      sumField [C5wJan, C5wFeb] (fun m => m.deductions) ∧
    sumField (aggregateMonthlyToAnnual [C5wJan, C5wFeb]) (fun m => m.netRevenue) =
      sumField [C5wJan, C5wFeb] (fun m => m.netRevenue) ∧
    sumField (aggregateMonthlyToAnnual [C5wJan, C5wFeb]) (fun m => m.cogs) =
      sumField [C5wJan, C5wFeb] (fun m => m.cogs) ∧
    sumField (aggregateMonthlyToAnnual [C5wJan, C5wFeb]) (fun m => m.grossProfit) =
      sumField [C5wJan, C5wFeb] (fun m => m.grossProfit) ∧
    sumField (aggregateMonthlyToAnnual [C5wJan, C5wFeb]) (fun m => m.sgaExpenses) =
      sumField [C5wJan, C5wFeb] (fun m => m.sgaExpenses) ∧
    sumField (aggregateMonthlyToAnnual [C5wJan, C5wFeb]) (fun m => m.depreciation) =
      sumField [C5wJan, C5wFeb] (fun m => m.depreciation) ∧
    sumField (aggregateMonthlyToAnnual [C5wJan, C5wFeb]) (fun m => m.otherOperating) =
      sumField [C5wJan, C5wFeb] (fun m => m.otherOperating) ∧
    sumField (aggregateMonthlyToAnnual [C5wJan, C5wFeb]) (fun m => m.ebit) =
      sumField [C5wJan, C5wFeb] (fun m => m.ebit) ∧
    sumField (aggregateMonthlyToAnnual [C5wJan, C5wFeb]) (fun m => m.financialResult) =
      sumField [C5wJan, C5wFeb] (fun m => m.financialResult) ∧
    sumField (aggregateMonthlyToAnnual [C5wJan, C5wFeb]) (fun m => m.ebt) =
      sumField [C5wJan, C5wFeb] (fun m => m.ebt) ∧
    sumField (aggregateMonthlyToAnnual [C5wJan, C5wFeb]) (fun m => m.incomeTax) =
      sumField [C5wJan, C5wFeb] (fun m => m.incomeTax) ∧
    sumField (aggregateMonthlyToAnnual [C5wJan, C5wFeb]) (fun m => m.netIncome) =
      sumField [C5wJan, C5wFeb] (fun m => m.netIncome) :=
  C5_monthly_annual_sums [C5wJan, C5wFeb] (by decide)

/-!
## C4 — gap months in the monthly aggregators
-/

theorem aggIS_eq (ledger : ParsedLedger) (mappings : List LedgerMapping) :
    aggregateToMonthlyIncomeStatements ledger mappings =
      (allMonthsInRange ledger).map (fun ym =>
        buildIncomeStatement (monthPeriod ym)
          ((mappings.filter (fun m =>
              decide (m.targetStatement = .income_statement) && decide (m.targetField ≠ ""))).foldl
            (dreMonthStep ledger ym) (fun _ => 0))) := by
  cases h : allMonthsInRange ledger with
  | nil => simp [aggregateToMonthlyIncomeStatements, h]
  | cons a l => simp [aggregateToMonthlyIncomeStatements, h]

theorem aggBS_eq (ledger : ParsedLedger) (mappings : List LedgerMapping) :
    aggregateToMonthlyBalanceSheets ledger mappings =
      (allMonthsInRange ledger).map (fun ym =>
        buildBalanceSheet (monthPeriod ym)
          ((mappings.filter (fun m =>
              decide (m.targetStatement = .balance_sheet) && decide (m.targetField ≠ ""))).foldl
            (bsMonthStep ledger (monthEndDate ym)) (fun _ => 0))) := by
  cases h : allMonthsInRange ledger with
  | nil => simp [aggregateToMonthlyBalanceSheets, h]
  | cons a l => simp [aggregateToMonthlyBalanceSheets, h]

theorem dreMonthStep_zero (ledger : ParsedLedger) (ym : String)
    (h : ∀ acc ∈ ledger.accounts, ∀ e ∈ acc.entries, jsStarts e.date ym = false)
    (g : String → ℚ) (m : LedgerMapping) : dreMonthStep ledger ym g m = g := by
  cases hfind : findAccount ledger m.accountCode with
  | none => simp [dreMonthStep, hfind]
  | some account =>
    have hmem : account ∈ ledger.accounts := List.mem_of_find?_eq_some hfind
    have hfil : account.entries.filter (fun e => jsStarts e.date ym) = [] :=
      List.filter_eq_nil_iff.mpr (fun e he => by simp [h account hmem e he])
    simp only [dreMonthStep, hfind]
    rw [hfil]
    have hval : (if account.accountType = .revenue
        then sumCredits [] - sumDebits [] else sumDebits [] - sumCredits []) = 0 := by
      simp [sumCredits, sumDebits]
    rw [hval]
    funext k
    simp [updValues]

theorem dreMonthFold_zero (ledger : ParsedLedger) (ym : String)
    (h : ∀ acc ∈ ledger.accounts, ∀ e ∈ acc.entries, jsStarts e.date ym = false) :
    ∀ (ms : List LedgerMapping) (g : String → ℚ),
      ms.foldl (dreMonthStep ledger ym) g = g := by
  intro ms
  induction ms with
  | nil => intro g; rfl
  | cons m ms ih =>
    intro g
    rw [List.foldl_cons, dreMonthStep_zero ledger ym h g m, ih g]

theorem filter_le_congr (es : List LedgerEntry) (d1 d2 : String)
    (hord : jsStrLe d1 d2 = true)
    (h : ∀ e ∈ es, ¬(jsStrLt d1 e.date = true ∧ jsStrLe e.date d2 = true)) :
    es.filter (fun e => jsStrLe e.date d2) = es.filter (fun e => jsStrLe e.date d1) := by
  induction es with
  | nil => rfl
  | cons e rest ih =>
    have hrest := ih (fun x hx => h x (List.mem_cons_of_mem e hx))
    by_cases h1 : jsStrLe e.date d1 = true
    · have h2 : jsStrLe e.date d2 = true := jsStrLe_trans h1 hord
      simp only [List.filter_cons, h1, h2, if_pos]
      rw [hrest]
    · have h1f : jsStrLe e.date d1 = false := by
        cases hx : jsStrLe e.date d1
        · rfl
        · exact absurd hx h1
      have hlt : jsStrLt d1 e.date = true := by
        simpa [jsStrLe, Bool.not_eq_false'] using h1f
      have h2 : jsStrLe e.date d2 = false := by
        cases hx : jsStrLe e.date d2
        · rfl
        · exact absurd ⟨hlt, hx⟩ (h e (List.mem_cons_self e rest))
      simp only [List.filter_cons, h1f, h2, Bool.false_eq_true, if_neg, if_false]
      exact hrest

theorem bsMonthStep_congr (ledger : ParsedLedger) (d1 d2 : String)
    (hord : jsStrLe d1 d2 = true)
    (h : ∀ acc ∈ ledger.accounts, ∀ e ∈ acc.entries,
        ¬(jsStrLt d1 e.date = true ∧ jsStrLe e.date d2 = true))
    (g : String → ℚ) (m : LedgerMapping) :
    bsMonthStep ledger d2 g m = bsMonthStep ledger d1 g m := by
  cases hfind : findAccount ledger m.accountCode with
  | none => simp [bsMonthStep, hfind]
  | some account =>
    have hmem : account ∈ ledger.accounts := List.mem_of_find?_eq_some hfind
    simp only [bsMonthStep, hfind]
    rw [filter_le_congr account.entries d1 d2 hord (h account hmem)]

theorem bsMonthFold_congr (ledger : ParsedLedger) (d1 d2 : String)
    (hord : jsStrLe d1 d2 = true)
    (h : ∀ acc ∈ ledger.accounts, ∀ e ∈ acc.entries,
        ¬(jsStrLt d1 e.date = true ∧ jsStrLe e.date d2 = true)) :
    ∀ (ms : List LedgerMapping) (g : String → ℚ),
      ms.foldl (bsMonthStep ledger d2) g = ms.foldl (bsMonthStep ledger d1) g := by
  intro ms
  induction ms with
  | nil => intro g; rfl
  | cons m ms ih =>
    intro g
    rw [List.foldl_cons, List.foldl_cons, bsMonthStep_congr ledger d1 d2 hord h g m, ih]

set_option maxHeartbeats 1000000 in
/-- C4: for an interior month with no ledger entries, both monthly aggregators
still emit a statement row for that month (one row per enumerated month); the
income-statement row for that month has every numeric field exactly zero; and
the balance-sheet row for that month has every balance field equal to the
previous month's (the last known cumulative balance — opening balance plus all
entries up to and including that month — not zero and not a monthly delta).
The "no entries in that month" premise is expressed as: no entry date starts
with the month label (income statements) and no entry date lies in the
half-open interval between the two month-end dates (balance sheets). -/
theorem C4_gap_months (ledger : ParsedLedger) (mappings : List LedgerMapping) (i : ℕ)
    (hi : i < (allMonthsInRange ledger).length) (_h0 : 1 ≤ i)
    (hord : jsStrLe (monthEndDate ((allMonthsInRange ledger).getD (i - 1) ""))
              (monthEndDate ((allMonthsInRange ledger).getD i "")) = true)
    (hIS : ∀ acc ∈ ledger.accounts, ∀ e ∈ acc.entries,
        jsStarts e.date ((allMonthsInRange ledger).getD i "") = false)
    (hBS : ∀ acc ∈ ledger.accounts, ∀ e ∈ acc.entries,
        ¬(jsStrLt (monthEndDate ((allMonthsInRange ledger).getD (i - 1) "")) e.date = true ∧
          jsStrLe e.date (monthEndDate ((allMonthsInRange ledger).getD i "")) = true)) :
    (aggregateToMonthlyIncomeStatements ledger mappings).length =
      (allMonthsInRange ledger).length ∧
    (aggregateToMonthlyBalanceSheets ledger mappings).length =
      (allMonthsInRange ledger).length ∧
    (∀ s, (aggregateToMonthlyIncomeStatements ledger mappings)[i]? = some s →
      ISFieldsZero s ∧
      s.period.startDate = (allMonthsInRange ledger).getD i "" ++ "-01") ∧
    (∀ b p, (aggregateToMonthlyBalanceSheets ledger mappings)[i]? = some b →
      (aggregateToMonthlyBalanceSheets ledger mappings)[i - 1]? = some p →
      BSFieldsEq b p) := by
  have hi1 : i - 1 < (allMonthsInRange ledger).length := lt_of_le_of_lt (Nat.sub_le i 1) hi
  have hymi : (allMonthsInRange ledger).getD i "" = (allMonthsInRange ledger)[i] :=
    List.getD_eq_getElem (allMonthsInRange ledger) "" hi
  have hymp : (allMonthsInRange ledger).getD (i - 1) "" = (allMonthsInRange ledger)[i - 1] :=
    List.getD_eq_getElem (allMonthsInRange ledger) "" hi1
  refine ⟨by rw [aggIS_eq]; simp, by rw [aggBS_eq]; simp, ?_, ?_⟩
  · intro s hs
    rw [aggIS_eq, List.getElem?_map, List.getElem?_eq_getElem hi] at hs
    simp only [Option.map_some'] at hs
    have hs2 := (Option.some.inj hs).symm
    rw [← hymi] at hs2
    rw [hs2, dreMonthFold_zero ledger _ hIS]
    refine ⟨?_, rfl⟩
    refine ⟨rfl, rfl, ?_, rfl, ?_, rfl, rfl, rfl, ?_, rfl, ?_, rfl, ?_⟩ <;>
      simp [buildIncomeStatement]
  · intro b p hb hp
    rw [aggBS_eq, List.getElem?_map, List.getElem?_eq_getElem hi] at hb
    rw [aggBS_eq, List.getElem?_map, List.getElem?_eq_getElem hi1] at hp
    simp only [Option.map_some'] at hb hp
    have hb2 := (Option.some.inj hb).symm
    have hp2 := (Option.some.inj hp).symm
    rw [← hymi] at hb2
    rw [← hymp] at hp2
    have hfold := bsMonthFold_congr ledger
      (monthEndDate ((allMonthsInRange ledger).getD (i - 1) ""))
      (monthEndDate ((allMonthsInRange ledger).getD i "")) hord hBS
      (mappings.filter (fun m =>
        decide (m.targetStatement = .balance_sheet) && decide (m.targetField ≠ "")))
      (fun _ => 0)
    rw [hb2, hp2, hfold]
    exact ⟨rfl, rfl, rfl, rfl, rfl, rfl, rfl, rfl, rfl, rfl, rfl, rfl, rfl, rfl, rfl, rfl⟩

set_option maxHeartbeats 4000000 in
/-- C4 witness: at the January–March ledger with no February entries, the
February income-statement row is all-zero and the February balance-sheet row
carries January's cumulative balances. -/
theorem C4_witness :
    ISFieldsZero ((aggregateToMonthlyIncomeStatements C4wLedger C4wMappings).getD 1 emptyIS) ∧
    ((aggregateToMonthlyIncomeStatements C4wLedger C4wMappings).getD 1 emptyIS).period.startDate =
      (allMonthsInRange C4wLedger).getD 1 "" ++ "-01" ∧
    BSFieldsEq ((aggregateToMonthlyBalanceSheets C4wLedger C4wMappings).getD 1 emptyBS)
      ((aggregateToMonthlyBalanceSheets C4wLedger C4wMappings).getD 0 emptyBS) := by
  have h := C4_gap_months C4wLedger C4wMappings 1 (by decide) (by decide) (by decide)
    (by decide) (by decide)
  refine ⟨?_, ?_, ?_⟩
  · exact (h.2.2.1 _ (by decide)).1
  · exact (h.2.2.1 _ (by decide)).2
  · exact h.2.2.2 _ _ (by decide) (by decide)

/-!
## C7 — entry sign invariant
-/

theorem finalizeAccount_entries (a : LedgerAccount) :
    (finalizeAccount a).entries = a.entries := by
  unfold finalizeAccount
  split <;> dsimp only <;> (repeat' split) <;> rfl

theorem parseStep_nonneg (config : ColumnConfig) (st : ParseState) (row : RawRow)
    (hd : 0 ≤ parseNumericCell (rowGet row config.debitCol))
    (hc : 0 ≤ parseNumericCell (rowGet row config.creditCol))
    (hacc : ∀ a ∈ st.accounts, EntriesNonneg a)
    (hcur : ∀ a, st.current = some a → EntriesNonneg a) :
    (∀ a ∈ (parseLedgerStep config st row).accounts, EntriesNonneg a) ∧
    (∀ a, (parseLedgerStep config st row).current = some a → EntriesNonneg a) := by
  unfold parseLedgerStep
  split
  · exact ⟨hacc, hcur⟩
  split
  · exact ⟨hacc, hcur⟩
  split
  · exact ⟨hacc, hcur⟩
  split
  · constructor
    · dsimp only
      split
      · next cur heq =>
        intro a ha
        rcases List.mem_append.mp ha with ha | ha
        · exact hacc a ha
        · rw [List.mem_singleton] at ha
          subst ha
          intro e he
          rw [finalizeAccount_entries] at he
          exact hcur cur heq e he
      · exact hacc
    · intro a ha
      try dsimp only at ha
      rw [Option.some.injEq] at ha
      subst ha
      intro e he
      simp [mkNewAccount] at he
  · split
    · exact ⟨hacc, hcur⟩
    · next cur heq =>
      split
      · refine ⟨hacc, ?_⟩
        intro a ha
        try dsimp only at ha
        rw [Option.some.injEq] at ha
        subst ha
        have hcr := hcur cur heq
        intro e he
        split_ifs at he <;> exact hcr e he
      · dsimp only
        by_cases hP : (if config.dateCol ≥ 0 then rowGet row config.dateCol else Cell.null) ≠ Cell.null ∧
            isDateCell (if config.dateCol ≥ 0 then rowGet row config.dateCol else Cell.null) = true
        · rw [if_pos hP]
          refine ⟨hacc, ?_⟩
          intro a ha
          rw [Option.some.injEq] at ha
          subst ha
          intro e he
          rcases List.mem_append.mp he with he | he
          · exact hcur cur heq e he
          · rw [List.mem_singleton] at he
            subst he
            constructor
            · dsimp only
              split
              · exact hd
              · exact le_refl 0
            · dsimp only
              split
              · exact hc
              · exact le_refl 0
        · rw [if_neg hP]
          exact ⟨hacc, hcur⟩

theorem parseFold_nonneg (config : ColumnConfig) :
    ∀ (rows : List RawRow) (st : ParseState),
      (∀ row ∈ rows, 0 ≤ parseNumericCell (rowGet row config.debitCol) ∧
                     0 ≤ parseNumericCell (rowGet row config.creditCol)) →
      (∀ a ∈ st.accounts, EntriesNonneg a) →
      (∀ a, st.current = some a → EntriesNonneg a) →
      (∀ a ∈ (rows.foldl (parseLedgerStep config) st).accounts, EntriesNonneg a) ∧
      (∀ a, (rows.foldl (parseLedgerStep config) st).current = some a → EntriesNonneg a) := by
  intro rows
  induction rows with
  | nil => intro st _ hacc hcur; exact ⟨hacc, hcur⟩
  | cons row rows ih =>
    intro st hrows hacc hcur
    have hrow := hrows row (List.mem_cons_self row rows)
    have hstep := parseStep_nonneg config st row hrow.1 hrow.2 hacc hcur
    exact ih (parseLedgerStep config st row)
      (fun r hr => hrows r (List.mem_cons_of_mem row hr)) hstep.1 hstep.2

theorem parseFragments_nonneg (rows : List RawRow) (config : ColumnConfig)
    (hrows : ∀ row ∈ rows, 0 ≤ parseNumericCell (rowGet row config.debitCol) ∧
                           0 ≤ parseNumericCell (rowGet row config.creditCol)) :
    ∀ a ∈ parseLedgerFragments rows config, EntriesNonneg a := by
  have h := parseFold_nonneg config rows ⟨[], none⟩ hrows
    (by intro a ha; cases ha) (by intro a ha; cases ha)
  unfold parseLedgerFragments
  dsimp only
  split
  · next cur heq =>
    intro a ha
    rcases List.mem_append.mp ha with ha | ha
    · exact h.1 a ha
    · rw [List.mem_singleton] at ha
      subst ha
      intro e he
      rw [finalizeAccount_entries] at he
      exact h.2 cur heq e he
  · exact h.1

theorem dedupInsert_nonneg (map : List LedgerAccount) (acc : LedgerAccount)
    (hmap : ∀ a ∈ map, EntriesNonneg a) (hacc : EntriesNonneg acc) :
    ∀ a ∈ dedupInsert map acc, EntriesNonneg a := by
  induction map with
  | nil =>
    intro a ha
    rw [dedupInsert, List.mem_singleton] at ha
    subst ha
    exact hacc
  | cons e rest ih =>
    intro a ha
    rw [dedupInsert] at ha
    split_ifs at ha
    · rcases List.mem_cons.mp ha with ha | ha
      · subst ha
        intro x hx
        rcases List.mem_append.mp hx with hx | hx
        · exact hmap e (List.mem_cons_self e rest) x hx
        · exact hacc x hx
      · exact hmap a (List.mem_cons_of_mem e ha)
    · rcases List.mem_cons.mp ha with ha | ha
      · subst ha
        exact hmap a (List.mem_cons_self a rest)
      · exact ih (fun x hx => hmap x (List.mem_cons_of_mem e hx)) a ha

theorem dedupFold_nonneg :
    ∀ (l map : List LedgerAccount),
      (∀ a ∈ l, EntriesNonneg a) → (∀ a ∈ map, EntriesNonneg a) →
      ∀ a ∈ l.foldl dedupInsert map, EntriesNonneg a := by
  intro l
  induction l with
  | nil => intro map _ hmap; exact hmap
  | cons x l ih =>
    intro map hl hmap
    exact ih (dedupInsert map x)
      (fun a ha => hl a (List.mem_cons_of_mem x ha))
      (dedupInsert_nonneg map x hmap (hl x (List.mem_cons_self x l)))

theorem deduplicate_nonneg (accounts : List LedgerAccount)
    (h : ∀ a ∈ accounts, EntriesNonneg a) :
    ∀ a ∈ deduplicateAccounts accounts, EntriesNonneg a := by
  intro a ha
  rw [deduplicateAccounts, List.mem_map] at ha
  obtain ⟨b, hb, rfl⟩ := ha
  intro e he
  rw [sortEntries_mem] at he
  exact dedupFold_nonneg accounts [] h (by intro x hx; cases hx) b hb e he

/-- C7 counterexample: a transaction row whose debit cell is the parenthesised
value `(500)` produces a ledger entry with debit −500 < 0, refuting the claim
that every appended entry has non-negative debit and credit for every input
grid. -/
theorem C7_counterexample :
    ((parseLedger C7exRows exConfig).accounts.map
        (fun a => a.entries.map (fun e => e.debit))) = [[-500]] ∧
    ¬ (0:ℚ) ≤ -500 := by
  constructor
  · rfl
  · decide

/-- C7 (amended): if every row of the grid parses to non-negative amounts in
the configured debit and credit columns, then every entry of every account of
`parseLedger rows config` has non-negative debit and credit.  (The original
claim, quantified over every input grid, is refuted by `C7_counterexample`:
`parseNumericCell` itself can return negative amounts, e.g. for parenthesised
cells.) -/
theorem C7_entry_sign_amended (rows : List RawRow) (config : ColumnConfig)
    (hrows : ∀ row ∈ rows, 0 ≤ parseNumericCell (rowGet row config.debitCol) ∧
                           0 ≤ parseNumericCell (rowGet row config.creditCol)) :
    ∀ acc ∈ (parseLedger rows config).accounts, EntriesNonneg acc := by
  intro acc hacc
  exact deduplicate_nonneg (parseLedgerFragments rows config)
    (parseFragments_nonneg rows config hrows) acc hacc

/-- C7 witness: the non-negativity hypothesis holds for the concrete grid
`C1wRows`, and the amended theorem yields non-negative entries for its single
parsed account. -/
theorem C7_witness :
    (∀ row ∈ C1wRows, 0 ≤ parseNumericCell (rowGet row exConfig.debitCol) ∧
                      0 ≤ parseNumericCell (rowGet row exConfig.creditCol)) ∧
    EntriesNonneg ((parseLedger C1wRows exConfig).accounts.headD emptyAccount) := by
  constructor
  · decide
  · exact C7_entry_sign_amended C1wRows exConfig (by decide)
      ((parseLedger C1wRows exConfig).accounts.headD emptyAccount) (by decide)

/-!
## C1 — totals and closing balance
-/

theorem finalizeAccount_good (a : LedgerAccount) (h : ZeroTotals a) :
    GoodAccount (finalizeAccount a) := by
  obtain ⟨hd, hc, hcl⟩ := h
  unfold finalizeAccount
  rw [if_pos (show a.totalDebits = 0 ∧ a.totalCredits = 0 from ⟨hd, hc⟩)]
  dsimp only
  rw [if_pos hcl]
  cases hlast : a.entries.getLast? with
  | none =>
    exact ⟨rfl, rfl, fun e he => by rw [hlast] at he; cases he⟩
  | some lastE =>
    dsimp only
    by_cases hb : lastE.balance ≠ 0
    · rw [if_pos hb]
      refine ⟨rfl, rfl, fun e he => ?_⟩
      rw [hlast] at he
      injection he with he
      subst he
      rfl
    · rw [if_neg hb]
      push_neg at hb
      refine ⟨rfl, rfl, fun e he => ?_⟩
      rw [hlast] at he
      injection he with he
      subst he
      rw [hcl, hb]

theorem parseStep_good (config : ColumnConfig) (st : ParseState) (row : RawRow)
    (hben : saldoBenign row = true)
    (hacc : ∀ a ∈ st.accounts, GoodAccount a)
    (hcur : ∀ a, st.current = some a → ZeroTotals a) :
    (∀ a ∈ (parseLedgerStep config st row).accounts, GoodAccount a) ∧
    (∀ a, (parseLedgerStep config st row).current = some a → ZeroTotals a) := by
  unfold parseLedgerStep
  split
  · exact ⟨hacc, hcur⟩
  split
  · exact ⟨hacc, hcur⟩
  split
  · exact ⟨hacc, hcur⟩
  split
  · constructor
    · dsimp only
      split
      · next cur heq =>
        intro a ha
        rcases List.mem_append.mp ha with ha | ha
        · exact hacc a ha
        · rw [List.mem_singleton] at ha
          subst ha
          exact finalizeAccount_good cur (hcur cur heq)
      · exact hacc
    · intro a ha
      try dsimp only at ha
      rw [Option.some.injEq] at ha
      subst ha
      exact ⟨rfl, rfl, rfl⟩
  · split
    · exact ⟨hacc, hcur⟩
    · next cur heq =>
      split
      · next saldoType hsal =>
        refine ⟨hacc, ?_⟩
        intro a ha
        try dsimp only at ha
        rw [Option.some.injEq] at ha
        subst ha
        have hb' := hben
        unfold saldoBenign at hb'
        rw [hsal] at hb'
        simp only [Bool.not_eq_eq_eq_not, Bool.not_true, Bool.or_eq_false_iff] at hb'
        obtain ⟨⟨htot1, htot2⟩, hfin⟩ := hb'
        have hz := hcur cur heq
        try dsimp only
        rw [if_neg (show ¬(jsIncludes saldoType "totais" = true ∨
            jsIncludes saldoType "total" = true) from by simp [htot1, htot2])]
        split_ifs with h1 h2
        · exact ⟨hz.1, hz.2.1, hz.2.2⟩
        · exact absurd h2 (by simp [hfin])
        · exact hz
      · dsimp only
        by_cases hP : (if config.dateCol ≥ 0 then rowGet row config.dateCol else Cell.null) ≠ Cell.null ∧
            isDateCell (if config.dateCol ≥ 0 then rowGet row config.dateCol else Cell.null) = true
        · rw [if_pos hP]
          refine ⟨hacc, ?_⟩
          intro a ha
          rw [Option.some.injEq] at ha
          subst ha
          have hz := hcur cur heq
          exact ⟨hz.1, hz.2.1, hz.2.2⟩
        · rw [if_neg hP]
          exact ⟨hacc, hcur⟩

theorem parseFold_good (config : ColumnConfig) :
    ∀ (rows : List RawRow) (st : ParseState),
      (∀ row ∈ rows, saldoBenign row = true) →
      (∀ a ∈ st.accounts, GoodAccount a) →
      (∀ a, st.current = some a → ZeroTotals a) →
      (∀ a ∈ (rows.foldl (parseLedgerStep config) st).accounts, GoodAccount a) ∧
      (∀ a, (rows.foldl (parseLedgerStep config) st).current = some a → ZeroTotals a) := by
  intro rows
  induction rows with
  | nil => intro st _ hacc hcur; exact ⟨hacc, hcur⟩
  | cons row rows ih =>
    intro st hben hacc hcur
    have hstep := parseStep_good config st row (hben row (List.mem_cons_self row rows)) hacc hcur
    exact ih (parseLedgerStep config st row)
      (fun r hr => hben r (List.mem_cons_of_mem row hr)) hstep.1 hstep.2

theorem parseFragments_good (rows : List RawRow) (config : ColumnConfig)
    (hben : ∀ row ∈ rows, saldoBenign row = true) :
    ∀ a ∈ parseLedgerFragments rows config, GoodAccount a := by
  have h := parseFold_good config rows ⟨[], none⟩ hben
    (by intro a ha; cases ha) (by intro a ha; cases ha)
  unfold parseLedgerFragments
  dsimp only
  split
  · next cur heq =>
    intro a ha
    rcases List.mem_append.mp ha with ha | ha
    · exact h.1 a ha
    · rw [List.mem_singleton] at ha
      subst ha
      exact finalizeAccount_good cur (h.2 cur heq)
  · exact h.1

theorem dedupInsert_append (map : List LedgerAccount) (acc : LedgerAccount)
    (h : acc.code ∉ map.map (fun a => a.code)) :
    dedupInsert map acc = map ++ [acc] := by
  induction map with
  | nil => rfl
  | cons e rest ih =>
    simp only [List.map_cons, List.mem_cons] at h
    push_neg at h
    rw [dedupInsert, if_neg (fun hc => h.1 hc.symm), ih h.2, List.cons_append]

theorem dedupFold_id :
    ∀ (l map : List LedgerAccount),
      ((map ++ l).map (fun a => a.code)).Nodup →
      l.foldl dedupInsert map = map ++ l := by
  intro l
  induction l with
  | nil => intro map _; simp
  | cons x l ih =>
    intro map h
    have h' := h
    simp only [List.map_append, List.map_cons] at h'
    rw [List.nodup_append] at h'
    have hx : x.code ∉ map.map (fun a => a.code) :=
      fun hmem => h'.2.2 hmem (List.mem_cons_self _ _)
    rw [List.foldl_cons, dedupInsert_append map x hx,
      ih (map ++ [x]) (by simpa [List.append_assoc] using h)]
    simp

theorem deduplicate_of_sorted (accounts : List LedgerAccount)
    (huniq : (accounts.map (fun a => a.code)).Nodup)
    (hsort : ∀ a ∈ accounts,
      List.Pairwise (fun x y : LedgerEntry => jsStrLe x.date y.date = true) a.entries) :
    deduplicateAccounts accounts = accounts := by
  rw [deduplicateAccounts, dedupFold_id accounts [] (by simpa using huniq),
    List.nil_append]
  have hmap : accounts.map (fun acc => { acc with entries := sortEntriesByDate acc.entries })
      = accounts.map id :=
    List.map_congr_left (fun a ha => by
      rw [sortEntries_of_sorted a.entries (hsort a ha)]
      rfl)
  rw [hmap, List.map_id]

/-- C1 counterexample: a grid with no saldo/totals rows at all whose two
transaction rows arrive in descending date order.  `finalizeAccount` takes the
closing balance from the last entry *before* `deduplicateAccounts` re-sorts the
entries by date, so the returned account has closing balance 5 while its last
entry's running balance is 10 — refuting the claim that the closing balance
always equals the last entry's recorded balance. -/
theorem C1_counterexample :
    (C1exRows.map isSaldoOrTotalLine) = [none, none, none] ∧
    ((parseLedger C1exRows exConfig).accounts.map
        (fun a => (a.closingBalance, (a.entries.getLast?).map (fun e => e.balance)))) =
      [((5:ℚ), some (10:ℚ))] ∧
    (5:ℚ) ≠ 10 := by
  refine ⟨rfl, rfl, by decide⟩

/-- C1 (amended): (1) if no row of the grid is a saldo row with an explicit
totals (`totais`/`total`) or final-balance (`final`) keyword, the account
fragments carry pairwise-distinct codes, and each fragment's entries are
already in ascending date order, then every account returned by `parseLedger`
has `totalDebits`/`totalCredits` equal to the sums over its entries and a
closing balance equal to the last entry's running balance; (2) when an account
reaches `finalizeAccount` with explicitly set (non-zero) totals, they are left
unchanged, not overwritten with the entry sums.  (The original claim fails
without the sortedness proviso: `deduplicateAccounts` re-sorts entries after
the closing balance was derived, see `C1_counterexample`.) -/
theorem C1_totals_and_closing_amended :
    (∀ (rows : List RawRow) (config : ColumnConfig),
      (∀ row ∈ rows, saldoBenign row = true) →
      ((parseLedgerFragments rows config).map (fun a => a.code)).Nodup →
      (∀ a ∈ parseLedgerFragments rows config,
        List.Pairwise (fun x y : LedgerEntry => jsStrLe x.date y.date = true) a.entries) →
      ∀ acc ∈ (parseLedger rows config).accounts, GoodAccount acc) ∧
    (∀ account : LedgerAccount,
      ¬(account.totalDebits = 0 ∧ account.totalCredits = 0) →
      (finalizeAccount account).totalDebits = account.totalDebits ∧
      (finalizeAccount account).totalCredits = account.totalCredits) := by
  constructor
  · intro rows config hben huniq hsort acc hacc
    have hded : (parseLedger rows config).accounts = parseLedgerFragments rows config := by
      show deduplicateAccounts (parseLedgerFragments rows config) = _
      exact deduplicate_of_sorted _ huniq hsort
    rw [hded] at hacc
    exact parseFragments_good rows config hben acc hacc
  · intro account h
    unfold finalizeAccount
    rw [if_neg h]
    dsimp only
    (repeat' split) <;> exact ⟨rfl, rfl⟩

/-- C1 witness: the amended invariant at the concrete sorted grid `C1wRows`
(its single account has totals 5/3 equal to the entry sums and closing balance
2, the last entry's balance), and totals 7/3 surviving `finalizeAccount`
untouched. -/
theorem C1_witness :
    (∀ row ∈ C1wRows, saldoBenign row = true) ∧
    ((parseLedgerFragments C1wRows exConfig).map (fun a => a.code)).Nodup ∧
    (∀ a ∈ parseLedgerFragments C1wRows exConfig,
      List.Pairwise (fun x y : LedgerEntry => jsStrLe x.date y.date = true) a.entries) ∧
    GoodAccount ((parseLedger C1wRows exConfig).accounts.headD emptyAccount) ∧
    ¬(({ emptyAccount with totalDebits := 7, totalCredits := 3 } : LedgerAccount).totalDebits = 0 ∧
      ({ emptyAccount with totalDebits := 7, totalCredits := 3 } : LedgerAccount).totalCredits = 0) ∧
    (finalizeAccount { emptyAccount with totalDebits := 7, totalCredits := 3 }).totalDebits = 7 ∧
    (finalizeAccount { emptyAccount with totalDebits := 7, totalCredits := 3 }).totalCredits = 3 := by
  refine ⟨by decide, by decide, by decide, ?_, by decide, ?_, ?_⟩
  · exact C1_totals_and_closing_amended.1 C1wRows exConfig (by decide) (by decide) (by decide)
      _ (by decide)
  · exact (C1_totals_and_closing_amended.2
      { emptyAccount with totalDebits := 7, totalCredits := 3 } (by decide)).1
  · exact (C1_totals_and_closing_amended.2
      { emptyAccount with totalDebits := 7, totalCredits := 3 } (by decide)).2

end Razao
